import Mathlib

/-!
# METAR station list updater (`util/updateStations.go`)

A shallow embedding of the program that rebuilds the METAR station list from
the NOAA fixed-width listing and the ourairports CSV listing, and the
properties of its parsers, its coordinate conversion and its merge.

Conventions of the embedding.

* A Go `string` is a sequence of bytes.  It is rendered as a `List Char`, one
  character per byte (the character with that byte's code); `len`, indexing and
  slicing are therefore the list operations.
* A run-time panic (index or slice out of range) and a `log.Fatal` are explicit
  results of type `Abort`.
* `float64` is modelled exactly: a value is NaN, an infinity or a finite
  binary64 number given by its sign, its 53-bit significand and the exponent of
  its last place; arithmetic rounds to nearest, ties to even.
* The library functions the program calls (`strings.TrimSpace`,
  `strconv.ParseFloat`, the field-count check of `encoding/csv`) are modelled
  from their documented behaviour.
-/

set_option autoImplicit false
set_option linter.unusedVariables false

namespace Metar

/-! ## Strings -/

/-- Go `string`: a sequence of bytes, one `Char` per byte. -/
abbrev GoString := List Char

/-- The ways a run stops without a result. -/
inductive Abort
  /-- A run-time panic: index or slice bounds out of range. -/
  | panic
  /-- The fetch of a source failed: `log.Fatal(httpError(err))`. -/
  | fatalHTTP
  /-- The fixed-width source gave no record: `log.Fatalf` of line 75. -/
  | fatalNoRecord
  /-- The CSV reader reported an error: `log.Fatalf` of line 95. -/
  | fatalCSV
  deriving DecidableEq, Repr

/-- Go `s[lo:hi]`: panics unless `lo ≤ hi ≤ len(s)`. -/
def slice (s : GoString) (lo hi : Nat) : Except Abort GoString :=
  if lo ≤ hi ∧ hi ≤ s.length then .ok ((s.take hi).drop lo) else .error .panic

/-- Go `s[i]`: panics unless `i < len(s)`. -/
def index (s : GoString) (i : Nat) : Except Abort Char :=
  match s.get? i with
  | some c => .ok c
  | none => .error .panic

/-- Number of bytes of the white-space rune encoded (UTF-8) at the head of the
    byte sequence, `0` when the head is not white space.  The runes are those of
    `unicode.IsSpace`: TAB, LF, VT, FF, CR, SPACE, U+0085, U+00A0, U+1680,
    U+2000..U+200A, U+2028, U+2029, U+202F, U+205F, U+3000. -/
def spaceWidth (s : List Nat) : Nat :=
  match s with
  | [] => 0
  | a :: r =>
    if (9 ≤ a ∧ a ≤ 13) ∨ a = 32 then 1
    else match r with
      | [] => 0
      | b :: r2 =>
        if a = 0xC2 ∧ (b = 0x85 ∨ b = 0xA0) then 2
        else match r2 with
          | [] => 0
          | c :: _ =>
            if a = 0xE1 ∧ b = 0x9A ∧ c = 0x80 then 3
            else if a = 0xE2 ∧ b = 0x80 ∧
                ((0x80 ≤ c ∧ c ≤ 0x8A) ∨ c = 0xA8 ∨ c = 0xA9 ∨ c = 0xAF) then 3
            else if a = 0xE2 ∧ b = 0x81 ∧ c = 0x9F then 3
            else if a = 0xE3 ∧ b = 0x80 ∧ c = 0x80 then 3
            else 0

/-- Same as `spaceWidth` for the white-space rune that ends the byte sequence,
    the sequence being given last byte first. -/
def spaceWidthRev (s : List Nat) : Nat :=
  match s with
  | [] => 0
  | a :: r =>
    if (9 ≤ a ∧ a ≤ 13) ∨ a = 32 then 1
    else match r with
      | [] => 0
      | b :: r2 =>
        if spaceWidth [b, a] = 2 then 2
        else match r2 with
          | [] => 0
          | c :: _ => if spaceWidth [c, b, a] = 3 then 3 else 0

/-- Drop leading white space; `fuel` bounds the number of runes dropped. -/
def trimLeft (fuel : Nat) (s : GoString) : GoString :=
  match fuel with
  | 0 => s
  | fuel + 1 =>
    match spaceWidth (s.map Char.toNat) with
    | 0 => s
    | w => trimLeft fuel (s.drop w)

/-- Drop trailing white space of a string given last byte first. -/
def trimRightRev (fuel : Nat) (s : GoString) : GoString :=
  match fuel with
  | 0 => s
  | fuel + 1 =>
    match spaceWidthRev (s.map Char.toNat) with
    | 0 => s
    | w => trimRightRev fuel (s.drop w)

/-- Go `strings.TrimSpace`: the string without its leading and trailing white
    space, as defined by Unicode. -/
def TrimSpace (s : GoString) : GoString :=
  (trimRightRev s.length (trimLeft s.length s).reverse).reverse

/-! ## float64 -/

/-- IEEE 754 binary64 values.  `fin neg m e` is `(-1)^neg · m · 2^e` with
    `m < 2^53`, `-1074 ≤ e ≤ 971`, and `2^52 ≤ m` unless `e = -1074`; the two
    zeros are `fin false 0 (-1074)` and `fin true 0 (-1074)`. -/
inductive F64
  | nan
  | inf (neg : Bool)
  | fin (neg : Bool) (m : Nat) (e : Int)
  deriving DecidableEq, Repr, Inhabited

namespace F64

/-- Binary logarithm rounded down, `⌊log₂ n⌋` (`0` for `n = 0`); `fuel` bounds
    the number of halvings and any `fuel ≥ n` is enough. -/
def log2 (fuel n : Nat) : Nat :=
  match fuel with
  | 0 => 0
  | fuel + 1 => if n < 2 then 0 else log2 fuel (n / 2) + 1

/-- The integer `⌊log₂ (n / d)⌋`, for `n, d > 0`. -/
def ilog2 (n d : Nat) : Int :=
  let e0 : Int := (log2 n n : Int) - (log2 d d : Int)
  if d * 2 ^ e0.toNat ≤ n * 2 ^ (-e0).toNat then e0 else e0 - 1

/-- The multiple of `2^e` nearest to `(-1)^neg · (n / d) · 2^k` (`d > 0`), ties
    to the even multiple, as a binary64 value whose last place is `2^e`; an
    infinity when it exceeds the largest finite number. -/
def roundTo (neg : Bool) (n d : Nat) (k e : Int) : F64 :=
  -- `(n / d) · 2^k = (num / den) · 2^e`
  let num : Nat := n * 2 ^ (k - e).toNat
  let den : Nat := d * 2 ^ (e - k).toNat
  let q : Nat := num / den
  let r : Nat := num % den
  let m : Nat :=
    if 2 * r < den then q
    else if den < 2 * r then q + 1
    else if q % 2 = 0 then q else q + 1
  if m = 2 ^ 53 then
    if e + 1 > 971 then .inf neg else .fin neg (2 ^ 52) (e + 1)
  else if e > 971 then .inf neg
  else .fin neg m e

/-- The binary64 value nearest to `(-1)^neg · (n / d) · 2^k` (`d > 0`), ties to
    the even significand: the last place is `2^(⌊log₂ |x|⌋ - 52)`, and `2^-1074`
    for the subnormal numbers. -/
def round (neg : Bool) (n d : Nat) (k : Int) : F64 :=
  if n = 0 then .fin neg 0 (-1074)
  else roundTo neg n d k (max (ilog2 n d + k - 52) (-1074))

/-- The number of opposite sign, Go `-x`. -/
def neg : F64 → F64
  | .nan => .nan
  | .inf b => .inf (!b)
  | .fin b m e => .fin (!b) m e

/-- The representations that are binary64 numbers: a significand of at most 53
    bits, of exactly 53 bits unless the exponent is the least one. -/
def Canonical : F64 → Prop
  | .fin _ m e => m < 2 ^ 53 ∧ -1074 ≤ e ∧ e ≤ 971 ∧ (2 ^ 52 ≤ m ∨ e = -1074)
  | _ => True

/-- The `float64` of a natural number constant. -/
def ofNat (n : Nat) : F64 := round false n 1 0

/-- Go `x + y` on `float64`. -/
def add : F64 → F64 → F64
  | .nan, _ => .nan
  | _, .nan => .nan
  | .inf a, .inf b => if a = b then .inf a else .nan
  | .inf a, .fin _ _ _ => .inf a
  | .fin _ _ _, .inf b => .inf b
  | .fin na ma ea, .fin nb mb eb =>
    let e : Int := min ea eb
    let a : Int := (if na then -1 else 1) * ((ma * 2 ^ (ea - e).toNat : Nat) : Int)
    let b : Int := (if nb then -1 else 1) * ((mb * 2 ^ (eb - e).toNat : Nat) : Int)
    let s : Int := a + b
    if s = 0 then .fin (na && nb) 0 (-1074)
    else round (decide (s < 0)) s.natAbs 1 e

/-- Go `x * y` on `float64`. -/
def mul : F64 → F64 → F64
  | .nan, _ => .nan
  | _, .nan => .nan
  | .inf a, .inf b => .inf (xor a b)
  | .inf a, .fin nb mb _ => if mb = 0 then .nan else .inf (xor a nb)
  | .fin na ma _, .inf b => if ma = 0 then .nan else .inf (xor na b)
  | .fin na ma ea, .fin nb mb eb => round (xor na nb) (ma * mb) 1 (ea + eb)

/-- Go `x / y` on `float64`. -/
def div : F64 → F64 → F64
  | .nan, _ => .nan
  | _, .nan => .nan
  | .inf _, .inf _ => .nan
  | .inf a, .fin nb _ _ => .inf (xor a nb)
  | .fin na _ _, .inf b => .fin (xor na b) 0 (-1074)
  | .fin na ma ea, .fin nb mb eb =>
    if mb = 0 then (if ma = 0 then .nan else .inf (xor na nb))
    else round (xor na nb) ma mb (ea - eb)

/-- Go `x == y` on `float64`: NaN equals nothing, the two zeros are equal. -/
def eq : F64 → F64 → Bool
  | .nan, _ => false
  | _, .nan => false
  | .inf a, .inf b => a == b
  | .inf _, .fin _ _ _ => false
  | .fin _ _ _, .inf _ => false
  | .fin na ma ea, .fin nb mb eb =>
    if ma = 0 ∧ mb = 0 then true else (na == nb) && (ma == mb) && (ea == eb)

end F64

/-- The constant `999.0`, the coordinate that stands for "unknown". -/
def sentinel : F64 := F64.ofNat 999

/-- The constant `60`. -/
def sixty : F64 := F64.ofNat 60

/-- The constant `-1`. -/
def minusOne : F64 := F64.round true 1 1 0

/-! ## `strconv.ParseFloat` -/

/-- The two errors of `strconv`. -/
inductive NumError
  | ErrSyntax
  | ErrRange
  deriving DecidableEq, Repr

/-- Decimal digit test, `'0' <= c && c <= '9'`. -/
def isDigit (c : Char) : Bool := decide ('0' ≤ c ∧ c ≤ '9')

/-- Value of a decimal digit, `c - '0'`. -/
def digitVal (c : Char) : Nat := c.toNat - 48

/-- Value of a hexadecimal digit, if `c` is one. -/
def hexVal (c : Char) : Option Nat :=
  if '0' ≤ c ∧ c ≤ '9' then some (c.toNat - 48)
  else if 'a' ≤ c ∧ c ≤ 'f' then some (c.toNat - 87)
  else if 'A' ≤ c ∧ c ≤ 'F' then some (c.toNat - 55)
  else none

/-- Length of the longest common prefix of `s` and the lower-case `pre`, the
    ASCII capitals of `s` being read as lower case
    (`commonPrefixLenIgnoreCase`). -/
def commonPrefixLenIgnoreCase : GoString → GoString → Nat
  | c :: s, p :: pre =>
    let c := if 'A' ≤ c ∧ c ≤ 'Z' then Char.ofNat (c.toNat + 32) else c
    if c = p then commonPrefixLenIgnoreCase s pre + 1 else 0
  | _, _ => 0

/-- The special values (`special` of `atof.go`): an optionally signed `inf` or
    `infinity`, or `nan`, in any case, at the head of `s`; the value and the
    number of bytes it takes. -/
def special (s : GoString) : Option (F64 × Nat) :=
  let infinity (neg : Bool) (nsign : Nat) (t : GoString) : Option (F64 × Nat) :=
    let n := commonPrefixLenIgnoreCase t "infinity".toList
    let n := if 3 < n ∧ n < 8 then 3 else n
    if n = 3 ∨ n = 8 then some (.inf neg, nsign + n) else none
  match s with
  | [] => none
  | c :: t =>
    if c = '+' then infinity false 1 t
    else if c = '-' then infinity true 1 t
    else if c = 'i' ∨ c = 'I' then infinity false 0 s
    else if c = 'n' ∨ c = 'N' then
      if commonPrefixLenIgnoreCase s "nan".toList = 3 then some (.nan, 3) else none
    else none

/-- What the digit loop of `readFloat` has seen. -/
structure Mantissa where
  /-- The digits read so far, as a number in the base. -/
  mant : Nat
  /-- How many of them stand after the point. -/
  frac : Nat
  sawdot : Bool
  sawdigits : Bool
  underscores : Bool
  deriving Repr

/-- The digit loop of `readFloat`: digits, underscores and one point; it stops
    at the first other byte and returns what is left. -/
def readMantissa (hex : Bool) : Mantissa → GoString → Mantissa × GoString
  | st, [] => (st, [])
  | st, c :: r =>
    if c = '_' then readMantissa hex { st with underscores := true } r
    else if c = '.' then
      if st.sawdot then (st, c :: r) else readMantissa hex { st with sawdot := true } r
    else
      match (if hex then hexVal c else if isDigit c then some (digitVal c) else none) with
      | some v =>
        readMantissa hex
          { st with
            sawdigits := true
            mant := st.mant * (if hex then 16 else 10) + v
            frac := if st.sawdot then st.frac + 1 else st.frac } r
      | none => (st, c :: r)

/-- The digits of the exponent: decimal digits and underscores; the value stops
    growing once it has reached 10000. -/
def readExpDigits : Nat → Bool → GoString → Nat × Bool × GoString
  | e, u, [] => (e, u, [])
  | e, u, c :: r =>
    if c = '_' then readExpDigits e true r
    else if isDigit c then readExpDigits (if e < 10000 then e * 10 + digitVal c else e) u r
    else (e, u, c :: r)

/-- The last byte seen by `underscoreOK`. -/
inductive Saw
  | start
  | digit
  | underscore
  | other
  deriving DecidableEq, Repr

/-- The scan of `underscoreOK`: an underscore must follow a digit and be
    followed by one. -/
def underscoreScan (hex : Bool) : Saw → GoString → Bool
  | saw, [] => decide (saw ≠ .underscore)
  | saw, c :: r =>
    if isDigit c ∨ (hex ∧ (('a' ≤ c ∧ c ≤ 'f') ∨ ('A' ≤ c ∧ c ≤ 'F'))) then
      underscoreScan hex .digit r
    else if c = '_' then
      if saw ≠ .digit then false else underscoreScan hex .underscore r
    else if saw = .underscore then false
    else underscoreScan hex .other r

/-- `underscoreOK` of `atoi.go`: are the underscores of `s` placed as in a Go
    literal. -/
def underscoreOK (s : GoString) : Bool :=
  let s := match s with
    | c :: r => if c = '-' ∨ c = '+' then r else s
    | [] => s
  match s with
  | a :: b :: r =>
    if a = '0' ∧ (b = 'b' ∨ b = 'B' ∨ b = 'o' ∨ b = 'O' ∨ b = 'x' ∨ b = 'X') then
      underscoreScan (decide (b = 'x' ∨ b = 'X')) .digit r
    else underscoreScan false .start s
  | _ => underscoreScan false .start s

/-- `readFloat` of `atof.go` on a whole string: sign, base, significand and
    exponent of the number written in `s`, read as
    `(-1)^neg · mant · base'^exp` with `base'` ten, or two for a hexadecimal
    number; `none` when `s` is not a number from its first to its last byte. -/
def readFloat (s : GoString) : Option (Bool × Bool × Nat × Int) :=
  let (neg, s1) := match s with
    | c :: r => if c = '+' then (false, r) else if c = '-' then (true, r) else (false, s)
    | [] => (false, s)
  let (hex, s2) := match s1 with
    | a :: b :: c :: r => if a = '0' ∧ (b = 'x' ∨ b = 'X') then (true, c :: r) else (false, s1)
    | _ => (false, s1)
  let (st, s3) := readMantissa hex ⟨0, 0, false, false, false⟩ s2
  if ¬ st.sawdigits then none
  else
    let dp : Int := - ((if hex then 4 * st.frac else st.frac : Nat) : Int)
    let finish (exp : Int) (underscores : Bool) (rest : GoString) :
        Option (Bool × Bool × Nat × Int) :=
      if ¬ rest.isEmpty then none
      else if underscores ∧ ¬ underscoreOK s then none
      else some (neg, hex, st.mant, exp)
    match s3 with
    | c :: r =>
      if (¬ hex ∧ (c = 'e' ∨ c = 'E')) ∨ (hex ∧ (c = 'p' ∨ c = 'P')) then
        let (eneg, r1) := match r with
          | d :: r0 => if d = '+' then (false, r0) else if d = '-' then (true, r0) else (false, r)
          | [] => (false, r)
        match r1 with
        | d :: _ =>
          if isDigit d then
            let (e, u, rest) := readExpDigits 0 st.underscores r1
            finish (dp + (if eneg then - (e : Int) else (e : Int))) u rest
          else none
        | [] => none
      else if hex then none
      else finish dp st.underscores s3
    | [] => if hex then none else finish dp st.underscores s3

/-- Go `strconv.ParseFloat(s, 64)`: the `float64` nearest to the decimal or
    hexadecimal number written in `s` and the error.  A string that is not a
    number gives `0` and `ErrSyntax`; a number too large gives an infinity and
    `ErrRange`. -/
def ParseFloat (s : GoString) : F64 × Option NumError :=
  match special s with
  | some (v, n) => if n = s.length then (v, none) else (.fin false 0 (-1074), some .ErrSyntax)
  | none =>
    match readFloat s with
    | none => (.fin false 0 (-1074), some .ErrSyntax)
    | some (neg, hex, mant, exp) =>
      let f : F64 :=
        if hex then F64.round neg mant 1 exp
        else if 0 ≤ exp then F64.round neg (mant * 10 ^ exp.toNat) 1 0
        else F64.round neg mant (10 ^ (-exp).toNat) 0
      match f with
      | .inf _ => (f, some .ErrRange)
      | _ => (f, none)

/-! ## The station record and `deg2dec` -/

/-- The `station` struct: METAR station details. -/
structure station where
  name : GoString
  icao : GoString
  iata : GoString
  country : GoString
  lat : F64
  long : F64
  deriving DecidableEq, Repr, Inhabited

/-- The function `deg2dec`: degree/minute coordinates to decimal degrees.  Each
    `ParseFloat` assigns the same variable `err`, which is tested once, after
    the fourth call. -/
def deg2dec (lat long : GoString) : Except Abort (F64 × F64) := do
  let (latd, err) := ParseFloat (← slice lat 0 2)
  let (latm, err) := ParseFloat (← slice lat 3 5)
  let (longd, err) := ParseFloat (← slice long 0 3)
  let (longm, err) := ParseFloat (← slice long 4 6)
  if err ≠ none then
    return (sentinel, sentinel)
  let lt := F64.add latd (F64.div latm sixty)
  let lg := F64.add longd (F64.div longm sixty)
  let lt := if (← index lat 5) = 'S' then F64.mul lt minusOne else lt
  let lg := if (← index long 6) = 'W' then F64.mul lg minusOne else lg
  return (lt, lg)

/-! ## Maps -/

/-- Go `map[string]station`: the entries, with pairwise distinct keys. -/
abbrev StationMap := List (GoString × station)

/-- Go `v, ok := m[k]`. -/
def mapGet (m : StationMap) (k : GoString) : Option station :=
  match m with
  | [] => none
  | e :: r => if e.1 = k then some e.2 else mapGet r k

/-- Go `m[k] = v`: the entry of key `k`, if any, is replaced. -/
def mapSet (m : StationMap) (k : GoString) (v : station) : StationMap :=
  (k, v) :: m.filter (fun e => decide (e.1 ≠ k))

/-! ## The NOAA fixed-width file (lines 55-76) -/

/-- Go `strings.Split(s, "\n")`. -/
def splitLines : GoString → List GoString
  | [] => [[]]
  | c :: r =>
    if c = '\n' then [] :: splitLines r
    else
      match splitLines r with
      | h :: t => (c :: h) :: t
      | [] => [[c]]

/-- The body of the loop over the lines (lines 57-73): the map after the line
    `l`. -/
def noaaLine (stationsNOAA : StationMap) (l : GoString) : Except Abort StationMap := do
  -- Skip titles, non METAR stations and stations w/o icao code
  if l.length ≠ 83 then return stationsNOAA
  if (← index l 62) ≠ 'X' then return stationsNOAA
  if TrimSpace (← slice l 20 24) = [] then return stationsNOAA
  -- convert degree/min to dec (999.0 if err)
  let (lt, lg) ← deg2dec (← slice l 39 46) (← slice l 47 55)
  -- Store station ident in map[icao]station
  return mapSet stationsNOAA (TrimSpace (← slice l 20 24))
    { name := TrimSpace (← slice l 3 20)
      icao := TrimSpace (← slice l 20 24)
      iata := []
      country := (← slice l 81 83)
      lat := lt
      long := lg }

/-- The first goroutine after its fetch (lines 55-76): the map of the NOAA
    stations read from the text `s`, fatal when it is empty. -/
def parseNOAA (s : GoString) : Except Abort StationMap := do
  let stationsNOAA ← (splitLines s).foldlM noaaLine []
  if stationsNOAA.length = 0 then throw .fatalNoRecord
  return stationsNOAA

/-! ## The ourairports CSV file (lines 88-118) -/

/-- Go `(*csv.Reader).ReadAll` with `FieldsPerRecord = n > 0`, on the records
    that the reader lexes from the text: an error as soon as a record has not
    `n` fields.  The lexing itself (quotes, line ends) is the library's and is
    not modelled: a CSV text is given by its records. -/
def ReadAll (fieldsPerRecord : Nat) (records : List (List GoString)) :
    Except Unit (List (List GoString)) :=
  if records.all (fun r => decide (r.length = fieldsPerRecord)) then .ok records
  else .error ()

/-- Go `l[i]` on a record. -/
def field (l : List GoString) (i : Nat) : Except Abort GoString :=
  match l.get? i with
  | some f => .ok f
  | none => .error .panic

/-- Go `strings.ReplaceAll(s, "\"", "")`. -/
def removeQuotes (s : GoString) : GoString := s.filter (fun c => decide (c ≠ '"'))

/-- The body of the loop over the CSV records (lines 98-117). -/
def csvRow (stationsLIST : StationMap) (l : List GoString) : Except Abort StationMap := do
  -- remove possible remaining `"` in airport name
  let l3 := removeQuotes (← field l 3)
  -- parse and conv coord. 999.0 if err
  let (lt, errLt) := ParseFloat (← field l 4)
  let (lg, errLg) := ParseFloat (← field l 5)
  let (lt, lg) := if errLt ≠ none ∨ errLg ≠ none then (sentinel, sentinel) else (lt, lg)
  -- if `municipality` not empty
  let l10 ← field l 10
  let l10 := if l10 ≠ [] then " (".toList ++ l10 ++ ")".toList else l10
  return mapSet stationsLIST (← field l 1)
    { name := l3 ++ l10
      icao := (← field l 1)
      iata := (← field l 13)
      country := (← field l 8)
      lat := lt
      long := lg }

/-- The record that the loop body (lines 99-117) builds from a row that has its
    18 fields; `csvRow_eq` below relates it to `csvRow`. -/
def csvStation (l : List GoString) : station :=
  let failed : Prop := (ParseFloat (l.getD 4 [])).2 ≠ none ∨ (ParseFloat (l.getD 5 [])).2 ≠ none
  { name := removeQuotes (l.getD 3 []) ++
      (if l.getD 10 [] ≠ [] then " (".toList ++ l.getD 10 [] ++ ")".toList else [])
    icao := l.getD 1 []
    iata := l.getD 13 []
    country := l.getD 8 []
    lat := if failed then sentinel else (ParseFloat (l.getD 4 [])).1
    long := if failed then sentinel else (ParseFloat (l.getD 5 [])).1 }

/-- The second goroutine after its fetch (lines 88-118): the map of the
    ourairports stations, fatal when the reader reports an error. -/
def parseCSV (records : List (List GoString)) : Except Abort StationMap := do
  let lines ← match ReadAll 18 records with
    | .ok lines => pure lines
    | .error _ => throw Abort.fatalCSV
  -- `lines[1:]`
  let rest ← match lines with
    | [] => throw Abort.panic
    | _ :: rest => pure rest
  rest.foldlM csvRow []

/-! ## The merge (lines 124-137) -/

/-- The body of the loop over the NOAA stations (lines 127-136). -/
def mergeStep (stationsLIST : StationMap) (final : List station) (vNOAA : station) :
    List station :=
  match mapGet stationsLIST vNOAA.icao with
  | some vLIST =>
    -- no valid lat-long in vLIST --> take NOAA lat-long
    let vLIST :=
      if F64.eq vLIST.lat sentinel then { vLIST with lat := vNOAA.lat, long := vNOAA.long }
      else vLIST
    final ++ [vLIST]
  | none => final ++ [vNOAA]

/-- The loop `for _, vNOAA := range stationsNOAA` (lines 125-137).  Go visits
    the entries of a map in an order of its choice: `order` is the map's
    entries in the order of the visit. -/
def merge (order : StationMap) (stationsLIST : StationMap) : List station :=
  order.foldl (fun final e => mergeStep stationsLIST final e.2) []

/-! ## Comparisons of `float64` -/

namespace F64

/-- Go `x <= y` on `float64`: false when an operand is NaN. -/
def le : F64 → F64 → Bool
  | .nan, _ => false
  | _, .nan => false
  | .inf a, .inf b => a || !b
  | .inf a, .fin _ _ _ => a
  | .fin _ _ _, .inf b => !b
  | .fin na ma ea, .fin nb mb eb =>
    let e : Int := min ea eb
    let a : Int := (if na then -1 else 1) * ((ma * 2 ^ (ea - e).toNat : Nat) : Int)
    let b : Int := (if nb then -1 else 1) * ((mb * 2 ^ (eb - e).toNat : Nat) : Int)
    decide (a ≤ b)

/-- The absolute value, Go `math.Abs`. -/
def abs : F64 → F64
  | .nan => .nan
  | .inf _ => .inf false
  | .fin _ m e => .fin false m e

/-- The rational number that a finite value denotes (`0` for the others). -/
def toRat : F64 → ℚ
  | .fin neg m e => (if neg then -1 else 1) * (m : ℚ) * (2 : ℚ) ^ e
  | _ => 0

end F64

/-! ## The sort (lines 139-140) -/

/-- Go `a < b` on strings: the order of the bytes, the shorter string first when
    it starts the longer one. -/
def strLess : GoString → GoString → Bool
  | [], [] => false
  | [], _ :: _ => true
  | _ :: _, [] => false
  | a :: s, b :: t => if a < b then true else if b < a then false else strLess s t

/-- The function given to `sort.Slice`, on the records instead of their
    indices: `final[i].icao < final[j].icao`. -/
def lessIcao (a b : station) : Bool := strLess a.icao b.icao

/-- Insertion of `a` in a sorted slice, before the first element that is not
    less than `a`. -/
def insertSorted (less : station → station → Bool) (a : station) : List station → List station
  | [] => [a]
  | b :: r => if less b a then b :: insertSorted less a r else a :: b :: r

/-- Go `sort.Slice(x, less)`: the elements of `x` in an order that `less`
    accepts.  The library does not say which of the orders it returns when two
    elements are equivalent for `less`; the model is the insertion sort, and the
    theorems on the program's output hold for any sorted permutation. -/
def sortSlice (less : station → station → Bool) : List station → List station
  | [] => []
  | a :: r => insertSorted less a (sortSlice less r)

/-! ## The lines written (lines 163-170) -/

/-- The decimal digits of `n`, before `acc`; `fuel` bounds their number. -/
def natDigits (fuel n : Nat) (acc : GoString) : GoString :=
  match fuel with
  | 0 => acc
  | fuel + 1 =>
    if n < 10 then Char.ofNat (48 + n) :: acc
    else natDigits fuel (n / 10) (Char.ofNat (48 + n % 10) :: acc)

/-- The verb `%.3f` of `fmt` on a `float64`: the decimal number with three
    digits after the point nearest to the value, ties to the even digit; `NaN`,
    `+Inf` and `-Inf` for the special values. -/
def formatFloat3 (x : F64) : GoString :=
  match x with
  | .nan => "NaN".toList
  | .inf false => "+Inf".toList
  | .inf true => "-Inf".toList
  | .fin neg m e =>
    -- `n / 1000` is `m · 2^e` rounded to a multiple of `1/1000`
    let num : Nat := m * 1000 * 2 ^ e.toNat
    let den : Nat := 2 ^ (-e).toNat
    let q : Nat := num / den
    let r : Nat := num % den
    let n : Nat :=
      if 2 * r < den then q
      else if den < 2 * r then q + 1
      else if q % 2 = 0 then q else q + 1
    let frac : Nat := n % 1000
    (if neg then ['-'] else []) ++ natDigits (n + 1) (n / 1000) [] ++
      ['.', Char.ofNat (48 + frac / 100), Char.ofNat (48 + frac / 10 % 10),
        Char.ofNat (48 + frac % 10)]

/-- The line of one record:
    `fmt.Sprintf("\t\"%s;%s;%s;%s;%.3f;%.3f\",\n", v.icao, v.iata, v.name, v.country, v.lat, v.long)`. -/
def recordLine (v : station) : GoString :=
  "\t\"".toList ++ v.icao ++ ";".toList ++ v.iata ++ ";".toList ++ v.name ++ ";".toList ++
    v.country ++ ";".toList ++ formatFloat3 v.lat ++ ";".toList ++ formatFloat3 v.long ++
    "\",\n".toList

/-- All that is written after the truncation: the lines of the records and
    the closing line. -/
def recordLines (final : List station) : GoString :=
  (final.map recordLine).flatten ++ "\x7d\n".toList

/-! ## The data file (lines 143-160) -/

/-- Does `s` start with `p`. -/
def startsWith : GoString → GoString → Bool
  | _, [] => true
  | [], _ :: _ => false
  | a :: s, b :: p => decide (a = b) && startsWith s p

/-- Go `strings.Contains(s, sub)`. -/
def Contains (s sub : GoString) : Bool :=
  match s with
  | [] => sub.isEmpty
  | c :: r => startsWith (c :: r) sub || Contains r sub

/-- The bytes of `data` before its first `\n`, and what follows that `\n` if
    there is one. -/
def cutLine : GoString → GoString × Option GoString
  | [] => ([], none)
  | c :: r =>
    if c = '\n' then ([], some r)
    else
      let (l, rest) := cutLine r
      (c :: l, rest)

/-- `dropCR` of `bufio`: the line without its final `\r`, if it has one. -/
def dropCR (t : GoString) : GoString :=
  if t.getLast? = some '\r' then t.dropLast else t

/-- The loop of lines 153-159 on what is left of the file, `data`: each call of
    `scanner.Scan()` gives the next line without its end (`\n`, or `\r\n`) and
    adds its length plus one to `bytesRead`; the loop stops after the first line
    that contains `var AdList`, at the end of the file, or at a line that the
    scanner refuses (more than 65535 bytes).  The result is `bytesRead`. -/
def scanMarker (fuel : Nat) (data : GoString) (bytesRead : Nat) : Nat :=
  match fuel with
  | 0 => bytesRead
  | fuel + 1 =>
    if data.isEmpty then bytesRead
    else
      let (raw, rest) := cutLine data
      if 65535 < raw.length then bytesRead
      else
        let t := dropCR raw
        let bytesRead := bytesRead + (t.length + 1)
        if Contains t "var AdList".toList then bytesRead
        else
          match rest with
          | none => bytesRead
          | some r => scanMarker fuel r bytesRead

/-- Go `f.Truncate(size)`: the first `size` bytes of the file, completed with
    zero bytes when the file is shorter. -/
def Truncate (content : GoString) (size : Nat) : GoString :=
  content.take size ++ List.replicate (size - content.length) (Char.ofNat 0)

/-- Lines 143-170 on a file of content `content`, opened with `O_APPEND`:
    truncation after the bytes counted by the scan, then the record lines and
    the closing line, all added at the end of the file.  The failures of the
    file system are not modelled. -/
def rewriteFile (content : GoString) (final : List station) : GoString :=
  Truncate content (scanMarker content.length content 0) ++ recordLines final

/-! ## The fetch: `wget` -/

/-- What `client.Get` gives when it succeeds: the status, the bytes that
    `ioutil.ReadAll` returns for the body and whether it returns an error with
    them. -/
structure Response where
  StatusCode : Nat
  body : GoString
  readFails : Bool
  deriving DecidableEq, Repr, Inhabited

/-- The errors that `wget` builds. -/
inductive UrlError
  /-- The error of `client.Get`. -/
  | transport
  /-- `HTTP error: ` and the text of the status. -/
  | httpStatus (code : Nat)
  /-- `Error reading response body`. -/
  | bodyRead
  deriving DecidableEq, Repr, Inhabited

/-- The function `wget` (lines 184-222), on the outcome of `client.Get`: the
    string and the error returned.  The error built when `ReadAll` fails (lines
    211-216) is a variable of the `if` block: nothing reads it and the function
    goes on to its last line. -/
def wget (get : Except Unit Response) : Except Abort (GoString × Option UrlError) :=
  match get with
  | .error _ => .ok ([], some .transport)
  | .ok res =>
    -- if not HTTP 200 OK in response header
    if res.StatusCode ≠ 200 then .ok ([], some (.httpStatus res.StatusCode))
    else
      let wgetAnswer := res.body
      let blockErr : Option UrlError := if res.readFails then some .bodyRead else none
      -- return output (after removing trailing \n)
      if wgetAnswer.length = 0 then .error .panic
      else .ok (wgetAnswer.take (wgetAnswer.length - 1), none)

/-! ## The whole run: `main` -/

/-- The function `main`.  `getNOAA` and `getCSV` are the outcomes of the two
    `client.Get`, `lexCSV` is the lexer of `encoding/csv` (from a text to its
    records, or an error), `visit` gives the order in which `range` visits a
    map, and `dataFile` is the content of the data file.  The result is the
    content of the data file after the run; when the run stops (`Abort`) the
    file has not been opened and keeps its content.  The two goroutines are run
    one after the other: which of two fatal errors is reported depends on the
    scheduler, that the run stops does not. -/
def main (getNOAA getCSV : Except Unit Response)
    (lexCSV : GoString → Except Unit (List (List GoString)))
    (visit : StationMap → StationMap) (dataFile : GoString) : Except Abort GoString := do
  -- Get and process NOAA file
  let (s, err) ← wget getNOAA
  if err ≠ none then throw Abort.fatalHTTP
  let stationsNOAA ← parseNOAA s
  -- get and process ourairport csv file
  let (s, err) ← wget getCSV
  if err ≠ none then throw Abort.fatalHTTP
  let stationsLIST ← match lexCSV s with
    | .error _ => throw Abort.fatalCSV
    | .ok records => parseCSV records
  -- print stations from NOAA with details taken in LIST if exists
  let final := merge (visit stationsNOAA) stationsLIST
  -- Sort `final` on icao code
  let final := sortSlice lessIcao final
  -- Add `final` to data file `ad_list.go`
  return rewriteFile dataFile final

/-- The content of the data file after a run. -/
def fileAfter (dataFile : GoString) (result : Except Abort GoString) : GoString :=
  match result with
  | .ok content => content
  | .error _ => dataFile

/-! ## Sample inputs -/

/-- A line of the NOAA file: Anchorage, `61 10N 150 30W`. -/
def lineANC : GoString :=
  "AK ANCHORAGE INTL   PANC  ANC   70273  61 10N  150 30W   38   X  T  X  A       5 US".toList

/-- The same line with the country field `" U"`. -/
def lineBlank : GoString :=
  "AK ANCHORAGE INTL   PANC  ANC   70273  61 10N  150 30W   38   X  T  X  A       5  U".toList

/-- Another line of the NOAA file: Fairbanks, `64 49N 147 52W`. -/
def lineFAI : GoString :=
  "AK FAIRBANKS INTL   PAFA  FAI   70261  64 49N  147 52W  138   X  T  X  A       5 US".toList

/-- The header of the ourairports file. -/
def csvHeader : List GoString :=
  ["id", "ident", "type", "name", "latitude_deg", "longitude_deg", "elevation_ft", "continent",
    "iso_country", "iso_region", "municipality", "scheduled_service", "gps_code", "iata_code",
    "local_code", "home_link", "wikipedia_link", "keywords"].map String.toList

/-- A row of the ourairports file, with the latitude and longitude given. -/
def csvRowOf (ident name lat long : String) : List GoString :=
  ["26434", ident, "large_airport", name, lat, long, "152", "NA", "US", "US-AK", "Anchorage",
    "yes", "PANC", "ANC", "ANC", "", "", ""].map String.toList

/-- The record of `lineANC`. -/
def stationANC : station :=
  { name := "ANCHORAGE INTL".toList
    icao := "PANC".toList
    iata := []
    country := "US".toList
    lat := .fin false 8608443037734229 (-47)
    long := .fin true 5295247999369216 (-45) }

/-- The record of `lineFAI`. -/
def stationFAI : station :=
  { name := "FAIRBANKS INTL".toList
    icao := "PAFA".toList
    iata := []
    country := "US".toList
    lat := .fin false 4561067435115588 (-46)
    long := .fin true 5202595819535292 (-45) }

/-- A data file: a preamble, the marker line, one old record and the closing
    line. -/
def fileOld : GoString :=
  "package data\n\nvar AdList = []string\x7b\n\t\"OLD;;x;US;1.000;2.000\",\n\x7d\n".toList

/-- What the maps built by the two parsers have in common: the keys are
    pairwise distinct and each record is stored under its own `icao`. -/
def KeyedByIcao (m : StationMap) : Prop :=
  (m.map Prod.fst).Nodup ∧ ∀ e ∈ m, e.2.icao = e.1

deriving instance DecidableEq for Except

set_option maxRecDepth 100000
set_option exponentiation.threshold 4000

/-! ## Rounding gives binary64 numbers; multiplying by -1 flips the sign -/

namespace F64

theorem log2_spec (fuel n : Nat) (h0 : 0 < n) (hf : n ≤ fuel) :
    2 ^ log2 fuel n ≤ n ∧ n < 2 ^ (log2 fuel n + 1) := by
  induction fuel generalizing n with
  | zero => omega
  | succ f ih =>
    unfold log2
    by_cases h2 : n < 2
    · rw [if_pos h2]
      constructor <;> simp <;> omega
    · rw [if_neg h2]
      have h := ih (n / 2) (by omega) (by omega)
      constructor
      · rw [pow_succ]
        omega
      · rw [pow_succ]
        omega

theorem zpow_toNat (i : ℤ) :
    ((2 ^ i.toNat : ℕ) : ℚ) / ((2 ^ (-i).toNat : ℕ) : ℚ) = (2 : ℚ) ^ i := by
  rcases le_total 0 i with h | h
  · obtain ⟨n, rfl⟩ := Int.eq_ofNat_of_zero_le h
    have h1 : (-(n : ℤ)).toNat = 0 := by omega
    simp [h1]
  · obtain ⟨n, hn⟩ := Int.eq_ofNat_of_zero_le (neg_nonneg.mpr h)
    have h3 : i = -(n : ℤ) := by omega
    subst h3
    have h1 : (-(n : ℤ)).toNat = 0 := by omega
    simp [h1]

theorem scaled_eq (n d : Nat) (i : ℤ) (hd : 0 < d) :
    ((n * 2 ^ i.toNat : ℕ) : ℚ) / ((d * 2 ^ (-i).toNat : ℕ) : ℚ) = (n : ℚ) / d * (2 : ℚ) ^ i := by
  rw [← zpow_toNat i]
  have h1 : ((d : ℕ) : ℚ) ≠ 0 := by positivity
  have h2 : ((2 ^ (-i).toNat : ℕ) : ℚ) ≠ 0 := by positivity
  push_cast
  field_simp

theorem roundTo_canonical (neg : Bool) (n d : Nat) (k e : Int) (hd : 0 < d)
    (he : -1074 ≤ e)
    (hub : (n : ℚ) / d * (2 : ℚ) ^ (k - e) < 2 ^ 53)
    (hlb : e ≠ -1074 → (2 : ℚ) ^ 52 ≤ (n : ℚ) / d * (2 : ℚ) ^ (k - e)) :
    Canonical (roundTo neg n d k e) := by
  have hek : (e - k) = -(k - e) := by ring
  have hden : 0 < d * 2 ^ (e - k).toNat := by positivity
  have hs := scaled_eq n d (k - e) hd
  rw [← hek] at hs
  have hdenq : (0 : ℚ) < ((d * 2 ^ (e - k).toNat : ℕ) : ℚ) := by exact_mod_cast hden
  have hq1 : n * 2 ^ (k - e).toNat / (d * 2 ^ (e - k).toNat) < 2 ^ 53 := by
    rw [Nat.div_lt_iff_lt_mul hden]
    rw [← hs, div_lt_iff₀ hdenq] at hub
    exact_mod_cast hub
  have hq2 : e ≠ -1074 → 2 ^ 52 ≤ n * 2 ^ (k - e).toNat / (d * 2 ^ (e - k).toNat) := by
    intro h
    have h2 := hlb h
    rw [Nat.le_div_iff_mul_le hden]
    rw [← hs, le_div_iff₀ hdenq] at h2
    exact_mod_cast h2
  unfold roundTo
  simp only
  generalize n * 2 ^ (k - e).toNat / (d * 2 ^ (e - k).toNat) = q at hq1 hq2 ⊢
  have hm : ∀ (r den : Nat),
      (if 2 * r < den then q else if den < 2 * r then q + 1
        else if q % 2 = 0 then q else q + 1) = q ∨
      (if 2 * r < den then q else if den < 2 * r then q + 1
        else if q % 2 = 0 then q else q + 1) = q + 1 := by
    intro r den
    split_ifs <;> simp
  generalize n * 2 ^ (k - e).toNat % (d * 2 ^ (e - k).toNat) = r
  generalize d * 2 ^ (e - k).toNat = den
  have hm2 := hm r den
  generalize (if 2 * r < den then q else if den < 2 * r then q + 1
        else if q % 2 = 0 then q else q + 1) = m at hm2 ⊢
  have hmq : q ≤ m ∧ m ≤ 2 ^ 53 := by omega
  by_cases h53 : m = 2 ^ 53
  · rw [if_pos h53]
    split
    · trivial
    · refine ⟨by norm_num, by omega, by omega, Or.inl (le_refl _)⟩
  · rw [if_neg h53]
    split
    · trivial
    · refine ⟨by omega, he, by omega, ?_⟩
      by_cases h74 : e = -1074
      · exact Or.inr h74
      · exact Or.inl (le_trans (hq2 h74) hmq.1)

theorem ilog2_spec (n d : Nat) (hn : 0 < n) (hd : 0 < d) :
    (2 : ℚ) ^ ilog2 n d ≤ (n : ℚ) / d ∧ (n : ℚ) / d < (2 : ℚ) ^ (ilog2 n d + 1) := by
  obtain ⟨ha1, ha2⟩ := log2_spec n n hn (le_refl _)
  obtain ⟨hb1, hb2⟩ := log2_spec d d hd (le_refl _)
  have hdq : (0 : ℚ) < d := by exact_mod_cast hd
  have ha1q : (2 : ℚ) ^ (log2 n n : ℤ) ≤ n := by
    rw [zpow_natCast]
    exact_mod_cast ha1
  have ha2q : (n : ℚ) < (2 : ℚ) ^ ((log2 n n : ℤ) + 1) := by
    have : ((log2 n n : ℤ) + 1) = ((log2 n n + 1 : ℕ) : ℤ) := by push_cast; ring
    rw [this, zpow_natCast]
    exact_mod_cast ha2
  have hb1q : (2 : ℚ) ^ (log2 d d : ℤ) ≤ d := by
    rw [zpow_natCast]
    exact_mod_cast hb1
  have hb2q : (d : ℚ) < (2 : ℚ) ^ ((log2 d d : ℤ) + 1) := by
    have : ((log2 d d : ℤ) + 1) = ((log2 d d + 1 : ℕ) : ℤ) := by push_cast; ring
    rw [this, zpow_natCast]
    exact_mod_cast hb2
  have h2 : (0 : ℚ) < 2 := by norm_num
  have hup : (n : ℚ) / d < (2 : ℚ) ^ ((log2 n n : ℤ) - (log2 d d : ℤ) + 1) := by
    rw [div_lt_iff₀ hdq]
    calc (n : ℚ) < (2 : ℚ) ^ ((log2 n n : ℤ) + 1) := ha2q
      _ = (2 : ℚ) ^ ((log2 n n : ℤ) - (log2 d d : ℤ) + 1) * (2 : ℚ) ^ (log2 d d : ℤ) := by
          rw [← zpow_add₀ (ne_of_gt h2)]
          congr 1
          ring
      _ ≤ (2 : ℚ) ^ ((log2 n n : ℤ) - (log2 d d : ℤ) + 1) * d :=
          mul_le_mul_of_nonneg_left hb1q (le_of_lt (zpow_pos h2 _))
  have hlo : (2 : ℚ) ^ ((log2 n n : ℤ) - (log2 d d : ℤ) - 1) ≤ (n : ℚ) / d := by
    rw [le_div_iff₀ hdq]
    calc (2 : ℚ) ^ ((log2 n n : ℤ) - (log2 d d : ℤ) - 1) * d
        ≤ (2 : ℚ) ^ ((log2 n n : ℤ) - (log2 d d : ℤ) - 1) * (2 : ℚ) ^ ((log2 d d : ℤ) + 1) :=
          mul_le_mul_of_nonneg_left (le_of_lt hb2q) (le_of_lt (zpow_pos h2 _))
      _ = (2 : ℚ) ^ (log2 n n : ℤ) := by
          rw [← zpow_add₀ (ne_of_gt h2)]
          congr 1
          ring
      _ ≤ n := ha1q
  unfold ilog2
  simp only
  generalize (log2 n n : ℤ) - (log2 d d : ℤ) = e0 at hup hlo ⊢
  have hs := scaled_eq n d (-e0) hd
  rw [neg_neg] at hs
  have hden : (0 : ℚ) < ((d * 2 ^ e0.toNat : ℕ) : ℚ) := by
    have : 0 < d * 2 ^ e0.toNat := by positivity
    exact_mod_cast this
  have hT : d * 2 ^ e0.toNat ≤ n * 2 ^ (-e0).toNat ↔ (2 : ℚ) ^ e0 ≤ (n : ℚ) / d := by
    have h1 : d * 2 ^ e0.toNat ≤ n * 2 ^ (-e0).toNat ↔
        (1 : ℚ) ≤ ((n * 2 ^ (-e0).toNat : ℕ) : ℚ) / ((d * 2 ^ e0.toNat : ℕ) : ℚ) := by
      rw [le_div_iff₀ hden, one_mul]
      exact Nat.cast_le.symm
    rw [h1, hs, zpow_neg, ← div_eq_mul_inv, le_div_iff₀ (zpow_pos h2 _), one_mul]
  by_cases h : d * 2 ^ e0.toNat ≤ n * 2 ^ (-e0).toNat
  · rw [if_pos h]
    exact ⟨hT.mp h, hup⟩
  · rw [if_neg h]
    refine ⟨hlo, ?_⟩
    rw [sub_add_cancel]
    exact lt_of_not_le (fun hc => h (hT.mpr hc))

theorem round_canonical (neg : Bool) (n d : Nat) (k : Int) (hd : 0 < d) :
    Canonical (round neg n d k) := by
  unfold round
  by_cases hn : n = 0
  · rw [if_pos hn]
    exact ⟨by norm_num, le_refl _, by norm_num, Or.inr rfl⟩
  · rw [if_neg hn]
    obtain ⟨h1, h2⟩ := ilog2_spec n d (Nat.pos_of_ne_zero hn) hd
    have h20 : (0 : ℚ) < 2 := by norm_num
    have h21 : (1 : ℚ) ≤ 2 := by norm_num
    apply roundTo_canonical neg n d k _ hd (le_max_right _ _)
    · calc (n : ℚ) / d * (2 : ℚ) ^ (k - max (ilog2 n d + k - 52) (-1074))
          < (2 : ℚ) ^ (ilog2 n d + 1) * (2 : ℚ) ^ (k - max (ilog2 n d + k - 52) (-1074)) :=
            mul_lt_mul_of_pos_right h2 (zpow_pos h20 _)
        _ = (2 : ℚ) ^ (ilog2 n d + 1 + (k - max (ilog2 n d + k - 52) (-1074))) :=
            (zpow_add₀ (ne_of_gt h20) _ _).symm
        _ ≤ (2 : ℚ) ^ (53 : ℤ) := by
            apply zpow_le_zpow_right₀ h21
            have := le_max_left (ilog2 n d + k - 52) (-1074)
            omega
        _ = 2 ^ 53 := by norm_num
    · intro hne
      have he : max (ilog2 n d + k - 52) (-1074) = ilog2 n d + k - 52 := by
        rcases max_cases (ilog2 n d + k - 52) (-1074) with h | h
        · exact h.1
        · exact absurd h.1 hne
      rw [he]
      calc (2 : ℚ) ^ 52 = (2 : ℚ) ^ (ilog2 n d + (k - (ilog2 n d + k - 52))) := by
            have : ilog2 n d + (k - (ilog2 n d + k - 52)) = 52 := by ring
            rw [this]
            norm_num
        _ = (2 : ℚ) ^ ilog2 n d * (2 : ℚ) ^ (k - (ilog2 n d + k - 52)) :=
            zpow_add₀ (ne_of_gt h20) _ _
        _ ≤ (n : ℚ) / d * (2 : ℚ) ^ (k - (ilog2 n d + k - 52)) :=
            mul_le_mul_of_nonneg_right h1 (le_of_lt (zpow_pos h20 _))

theorem add_canonical (x y : F64) : Canonical (add x y) := by
  have hz : ∀ b : Bool, Canonical (.fin b 0 (-1074)) :=
    fun _ => ⟨by norm_num, le_refl _, by norm_num, Or.inr rfl⟩
  cases x <;> cases y <;> simp only [add] <;>
    first
    | trivial
    | (split_ifs <;> first | trivial | exact hz _ | exact round_canonical _ _ 1 _ Nat.one_pos)

theorem roundTo_exact (neg : Bool) (m : Nat) (e : Int) (hm : m < 2 ^ 53) (he : e ≤ 971) :
    roundTo neg (m * 2 ^ 52) 1 (e + -52) e = .fin neg m e := by
  have h1 : (e + -52 - e).toNat = 0 := by omega
  have h2 : (e - (e + -52)).toNat = 52 := by omega
  unfold roundTo
  simp only [h1, h2, pow_zero, mul_one, one_mul]
  have hq : m * 2 ^ 52 / 2 ^ 52 = m := Nat.mul_div_cancel m (by norm_num)
  have hr : m * 2 ^ 52 % 2 ^ 52 = 0 := Nat.mul_mod_left m (2 ^ 52)
  rw [hq, hr]
  have h53 : ¬ m = 2 ^ 53 := by omega
  have h971 : ¬ e > 971 := by omega
  have hlt : 2 * 0 < 2 ^ 52 := by norm_num
  rw [if_pos hlt, if_neg h53, if_neg h971]

theorem mul_minusOne (x : F64) (hx : Canonical x) : mul x minusOne = neg x := by
  have hmo : minusOne = .fin true (2 ^ 52) (-52) := by decide
  rw [hmo]
  cases x with
  | nan => rfl
  | inf a => simp [mul, neg]
  | fin b m e =>
    obtain ⟨hm, he1, he2, hn⟩ := hx
    simp only [mul, neg, Bool.xor_true]
    unfold round
    by_cases h0 : m = 0
    · have he : e = -1074 := by
        rcases hn with h | h
        · omega
        · exact h
      simp [h0, he]
    · have hne : ¬ m * 2 ^ 52 = 0 := by positivity
      rw [if_neg hne]
      obtain ⟨hl1, hl2⟩ := ilog2_spec (m * 2 ^ 52) 1 (by positivity) Nat.one_pos
      have h21 : (1 : ℚ) < 2 := by norm_num
      have hmq : ((m * 2 ^ 52 : ℕ) : ℚ) / ((1 : ℕ) : ℚ) < (2 : ℚ) ^ (105 : ℤ) := by
        have : m * 2 ^ 52 < 2 ^ 105 := by omega
        have h3 : ((m * 2 ^ 52 : ℕ) : ℚ) < ((2 ^ 105 : ℕ) : ℚ) := by exact_mod_cast this
        have h4 : ((2 ^ 105 : ℕ) : ℚ) = (2 : ℚ) ^ (105 : ℤ) := by norm_num
        rw [Nat.cast_one, div_one, ← h4]
        exact h3
      have hlt : ilog2 (m * 2 ^ 52) 1 < 105 :=
        (zpow_lt_zpow_iff_right₀ h21).mp (lt_of_le_of_lt hl1 hmq)
      have hexp : max (ilog2 (m * 2 ^ 52) 1 + (e + -52) - 52) (-1074) = e := by
        rcases hn with h | h
        · have hmq2 : (2 : ℚ) ^ (104 : ℤ) ≤ ((m * 2 ^ 52 : ℕ) : ℚ) / ((1 : ℕ) : ℚ) := by
            have : 2 ^ 104 ≤ m * 2 ^ 52 := by omega
            have h3 : ((2 ^ 104 : ℕ) : ℚ) ≤ ((m * 2 ^ 52 : ℕ) : ℚ) := by exact_mod_cast this
            have h4 : ((2 ^ 104 : ℕ) : ℚ) = (2 : ℚ) ^ (104 : ℤ) := by norm_num
            rw [Nat.cast_one, div_one, ← h4]
            exact h3
          have hgt : (104 : ℤ) < ilog2 (m * 2 ^ 52) 1 + 1 :=
            (zpow_lt_zpow_iff_right₀ h21).mp (lt_of_le_of_lt hmq2 hl2)
          have : ilog2 (m * 2 ^ 52) 1 = 104 := by omega
          rw [this]
          omega
        · subst h
          omega
      rw [hexp]
      exact roundTo_exact (!b) m e hm he2

end F64

/-! ## Bounds of slices and indices -/

theorem slice_ok (s : GoString) (lo hi : Nat) (h : lo ≤ hi) (h2 : hi ≤ s.length) :
    slice s lo hi = .ok ((s.take hi).drop lo) := by
  simp [slice, h, h2]

theorem index_ok (s : GoString) (i : Nat) (h : i < s.length) :
    index s i = .ok s[i] := by
  simp [index, List.getElem?_eq_getElem h]

theorem field_ok (l : List GoString) (i : Nat) (h : i < l.length) :
    field l i = .ok l[i] := by
  simp [field, List.getElem?_eq_getElem h]

theorem deg2dec_eq (lat long : GoString) (h1 : 6 ≤ lat.length) (h2 : 7 ≤ long.length) :
    deg2dec lat long = .ok
      (if (ParseFloat ((long.take 6).drop 4)).2 ≠ none then (sentinel, sentinel)
       else
        (let lt := F64.add (ParseFloat (lat.take 2)).1 (F64.div (ParseFloat ((lat.take 5).drop 3)).1 sixty)
         if lat[5]? = some 'S' then F64.mul lt minusOne else lt,
         let lg := F64.add (ParseFloat (long.take 3)).1 (F64.div (ParseFloat ((long.take 6).drop 4)).1 sixty)
         if long[6]? = some 'W' then F64.mul lg minusOne else lg)) := by
  unfold deg2dec
  rw [slice_ok lat 0 2 (by omega) (by omega), slice_ok lat 3 5 (by omega) (by omega),
    slice_ok long 0 3 (by omega) (by omega), slice_ok long 4 6 (by omega) (by omega),
    index_ok lat 5 (by omega), index_ok long 6 (by omega)]
  have e5 : lat[5]? = some lat[5] := List.getElem?_eq_getElem (by omega)
  have e6 : long[6]? = some long[6] := List.getElem?_eq_getElem (by omega)
  simp only [List.drop_zero, e5, e6, Option.some.injEq]
  simp only [bind, Except.bind, pure, Except.pure]
  split <;> rfl

theorem noaaLine_skip (m : StationMap) (l : GoString)
    (h : ¬ (l.length = 83 ∧ l[62]? = some 'X' ∧ TrimSpace ((l.take 24).drop 20) ≠ [])) :
    noaaLine m l = .ok m := by
  unfold noaaLine
  by_cases hl : l.length = 83
  · rw [index_ok l 62 (by omega), slice_ok l 20 24 (by omega) (by omega)]
    have e : l[62]? = some l[62] := List.getElem?_eq_getElem (by omega)
    simp only [hl, e, Option.some.injEq, true_and] at h
    simp only [bind, Except.bind, pure, Except.pure, hl]
    by_cases hx : l[62] = 'X'
    · have ht : TrimSpace ((l.take 24).drop 20) = [] := by
        by_contra hc
        exact h ⟨hx, hc⟩
      simp [hx, ht]
    · simp [hx]
  · simp [hl, pure, Except.pure]

theorem noaaLine_keep (m : StationMap) (l : GoString)
    (h : l.length = 83 ∧ l[62]? = some 'X' ∧ TrimSpace ((l.take 24).drop 20) ≠ []) :
    ∃ lt lg, deg2dec ((l.take 46).drop 39) ((l.take 55).drop 47) = .ok (lt, lg) ∧
      noaaLine m l = .ok (mapSet m (TrimSpace ((l.take 24).drop 20))
        { name := TrimSpace ((l.take 20).drop 3)
          icao := TrimSpace ((l.take 24).drop 20)
          iata := []
          country := (l.take 83).drop 81
          lat := lt
          long := lg }) := by
  obtain ⟨hl, hx, ht⟩ := h
  have e : l[62]? = some l[62] := List.getElem?_eq_getElem (by omega)
  rw [e] at hx
  simp only [Option.some.injEq] at hx
  obtain ⟨c, hd⟩ : ∃ c, deg2dec ((l.take 46).drop 39) ((l.take 55).drop 47) = .ok c :=
    ⟨_, deg2dec_eq ((l.take 46).drop 39) ((l.take 55).drop 47) (by simp; omega) (by simp; omega)⟩
  refine ⟨c.1, c.2, hd, ?_⟩
  unfold noaaLine
  rw [index_ok l 62 (by omega), slice_ok l 20 24 (by omega) (by omega),
    slice_ok l 39 46 (by omega) (by omega), slice_ok l 47 55 (by omega) (by omega),
    slice_ok l 3 20 (by omega) (by omega), slice_ok l 81 83 (by omega) (by omega)]
  simp only [bind, Except.bind, pure, Except.pure, hd]
  simp [hl, hx, ht]

/-! ## Maps and the merge loop -/

theorem mapGet_mapSet_self (m : StationMap) (k : GoString) (v : station) :
    mapGet (mapSet m k v) k = some v := by
  simp [mapSet, mapGet]

theorem mapGet_mem (m : StationMap) (k : GoString) (v : station) (h : mapGet m k = some v) :
    (k, v) ∈ m := by
  induction m with
  | nil => simp [mapGet] at h
  | cons e r ih =>
    unfold mapGet at h
    split at h
    · rename_i hk
      simp only [Option.some.injEq] at h
      rw [← hk, ← h]
      exact List.mem_cons_self _ _
    · exact List.mem_cons_of_mem _ (ih h)

theorem mapGet_none (m : StationMap) (k : GoString) :
    mapGet m k = none ↔ k ∉ m.map Prod.fst := by
  induction m with
  | nil => simp [mapGet]
  | cons e r ih =>
    unfold mapGet
    by_cases hk : e.1 = k
    · simp [hk]
    · simp only [hk, if_false, ih, List.map_cons, List.mem_cons, not_or]
      constructor
      · intro h
        exact ⟨fun h2 => hk h2.symm, h⟩
      · intro h
        exact h.2

theorem mapSet_keyed (m : StationMap) (k : GoString) (v : station)
    (hm : KeyedByIcao m) (hv : v.icao = k) : KeyedByIcao (mapSet m k v) := by
  obtain ⟨hn, hi⟩ := hm
  constructor
  · simp only [mapSet, List.map_cons, List.nodup_cons]
    constructor
    · simp
    · exact (hn.sublist ((List.filter_sublist m).map Prod.fst))
  · intro e he
    simp only [mapSet, List.mem_cons] at he
    rcases he with rfl | he
    · exact hv
    · exact hi e (List.mem_of_mem_filter he)

theorem merge_eq_map (order stationsLIST : StationMap) :
    merge order stationsLIST = order.map (fun e => (mergeStep stationsLIST [] e.2).headD e.2) := by
  have h : ∀ (acc : List station),
      order.foldl (fun final e => mergeStep stationsLIST final e.2) acc =
        acc ++ order.map (fun e => (mergeStep stationsLIST [] e.2).headD e.2) := by
    induction order with
    | nil => simp
    | cons e r ih =>
      intro acc
      rw [List.foldl_cons, ih]
      simp only [List.map_cons]
      unfold mergeStep
      cases hg : mapGet stationsLIST e.2.icao <;> simp
  simpa [merge] using h []

/-! ## The maps of the two parsers -/

theorem noaaLine_cases (m : StationMap) (l : GoString) :
    noaaLine m l = .ok m ∨
      ∃ st, st.icao = TrimSpace ((l.take 24).drop 20) ∧ st.iata = [] ∧
        noaaLine m l = .ok (mapSet m (TrimSpace ((l.take 24).drop 20)) st) := by
  by_cases h : l.length = 83 ∧ l[62]? = some 'X' ∧ TrimSpace ((l.take 24).drop 20) ≠ []
  · right
    obtain ⟨lt, lg, -, hk⟩ := noaaLine_keep m l h
    exact ⟨_, rfl, rfl, hk⟩
  · left
    exact noaaLine_skip m l h

theorem foldlM_noaaLine (lines : List GoString) (m : StationMap)
    (hm : KeyedByIcao m ∧ ∀ e ∈ m, e.2.iata = []) :
    ∃ m2, lines.foldlM noaaLine m = .ok m2 ∧ KeyedByIcao m2 ∧ ∀ e ∈ m2, e.2.iata = [] := by
  induction lines generalizing m with
  | nil => exact ⟨m, rfl, hm⟩
  | cons l r ih =>
    rw [List.foldlM_cons]
    rcases noaaLine_cases m l with h | ⟨st, h1, h2, h⟩
    · rw [h]
      exact ih m hm
    · rw [h]
      refine ih _ ⟨mapSet_keyed m _ st hm.1 h1, ?_⟩
      intro e he
      simp only [mapSet, List.mem_cons] at he
      rcases he with rfl | he
      · exact h2
      · exact hm.2 e (List.mem_of_mem_filter he)

theorem parseNOAA_keyed (s : GoString) (m : StationMap) (h : parseNOAA s = .ok m) :
    KeyedByIcao m ∧ ∀ e ∈ m, e.2.iata = [] := by
  obtain ⟨m2, h2, hk⟩ := foldlM_noaaLine (splitLines s) []
    ⟨⟨by simp, by simp⟩, by simp⟩
  unfold parseNOAA at h
  rw [h2] at h
  simp only [bind, Except.bind, pure, Except.pure] at h
  split at h
  · simp [throw, throwThe, MonadExceptOf.throw] at h
  · simp only [Except.ok.injEq] at h
    rw [← h]
    exact hk

theorem csvRow_eq (m : StationMap) (l : List GoString) (h : l.length = 18) :
    csvRow m l = .ok (mapSet m (l.getD 1 []) (csvStation l)) := by
  rcases l with _ | ⟨f0, _ | ⟨f1, _ | ⟨f2, _ | ⟨f3, _ | ⟨f4, _ | ⟨f5, _ | ⟨f6, _ | ⟨f7, _ | ⟨f8, _ | ⟨f9, _ | ⟨f10, _ | ⟨f11, _ | ⟨f12, _ | ⟨f13, _ | ⟨f14, _ | ⟨f15, _ | ⟨f16, _ | ⟨f17, _ | ⟨f18, l⟩⟩⟩⟩⟩⟩⟩⟩⟩⟩⟩⟩⟩⟩⟩⟩⟩⟩⟩
  all_goals first
    | (simp at h; done)
    | skip
  simp only [csvRow, csvStation, field, bind, Except.bind, pure, Except.pure, List.getD,
    List.getElem?_cons_succ, List.getElem?_cons_zero, List.get?_cons_succ, List.get?_cons_zero,
    Option.getD_some]
  by_cases h10 : f10 = [] <;> by_cases hp : (ParseFloat f4).2 ≠ none ∨ (ParseFloat f5).2 ≠ none <;>
    simp only [h10, hp, if_true, if_false, ne_eq, not_true_eq_false, not_false_eq_true]


theorem foldlM_csvRow (rows : List (List GoString)) (m : StationMap)
    (h : ∀ l ∈ rows, l.length = 18) :
    rows.foldlM csvRow m =
      .ok (rows.foldl (fun m l => mapSet m (l.getD 1 []) (csvStation l)) m) := by
  induction rows generalizing m with
  | nil => rfl
  | cons l r ih =>
    rw [List.foldlM_cons, csvRow_eq m l (h l (List.mem_cons_self _ _))]
    exact ih _ (fun l2 h2 => h l2 (List.mem_cons_of_mem _ h2))

theorem parseCSV_eq (hd : List GoString) (rest : List (List GoString))
    (h : ∀ l ∈ hd :: rest, l.length = 18) :
    parseCSV (hd :: rest) =
      .ok (rest.foldl (fun m l => mapSet m (l.getD 1 []) (csvStation l)) []) := by
  have hall : (hd :: rest).all (fun r => decide (r.length = 18)) = true := by
    rw [List.all_eq_true]
    intro r hr
    simpa using h r hr
  unfold parseCSV ReadAll
  rw [if_pos hall]
  exact foldlM_csvRow rest [] (fun l hl => h l (List.mem_cons_of_mem _ hl))

theorem parseCSV_error (records : List (List GoString)) (r : List GoString)
    (hr : r ∈ records) (hlen : r.length ≠ 18) : parseCSV records = .error .fatalCSV := by
  have hall : ¬ records.all (fun r => decide (r.length = 18)) = true := by
    rw [List.all_eq_true]
    intro h
    exact hlen (by simpa using h r hr)
  unfold parseCSV ReadAll
  rw [if_neg hall]
  rfl

theorem parseCSV_ok (records : List (List GoString)) (m : StationMap)
    (h : parseCSV records = .ok m) :
    ∃ hd rest, records = hd :: rest ∧ ∀ l ∈ records, l.length = 18 := by
  by_cases hall : ∀ l ∈ records, l.length = 18
  · cases records with
    | nil =>
      exact Except.noConfusion (h.symm.trans (rfl : parseCSV [] = .error .panic))
    | cons hd rest => exact ⟨hd, rest, rfl, hall⟩
  · exfalso
    push_neg at hall
    obtain ⟨r, hr, hlen⟩ := hall
    rw [parseCSV_error records r hr hlen] at h
    exact Except.noConfusion h

theorem foldl_csv_keyed (rows : List (List GoString)) (m : StationMap) (hm : KeyedByIcao m) :
    KeyedByIcao (rows.foldl (fun m l => mapSet m (l.getD 1 []) (csvStation l)) m) := by
  induction rows generalizing m with
  | nil => exact hm
  | cons l r ih => exact ih _ (mapSet_keyed m _ _ hm rfl)

theorem parseCSV_keyed (records : List (List GoString)) (m : StationMap)
    (h : parseCSV records = .ok m) : KeyedByIcao m := by
  obtain ⟨hd, rest, rfl, hall⟩ := parseCSV_ok records m h
  rw [parseCSV_eq hd rest hall] at h
  simp only [Except.ok.injEq] at h
  rw [← h]
  exact foldl_csv_keyed rest [] ⟨by simp, by simp⟩

theorem mapGet_filter (m : StationMap) (k k2 : GoString) (h : k ≠ k2) :
    mapGet (m.filter (fun e => decide (e.1 ≠ k))) k2 = mapGet m k2 := by
  induction m with
  | nil => rfl
  | cons e r ih =>
    by_cases he : e.1 = k
    · have h2 : ¬ e.1 = k2 := fun h3 => h (he.symm.trans h3)
      have hf : (e :: r).filter (fun e => decide (e.1 ≠ k)) =
          r.filter (fun e => decide (e.1 ≠ k)) := by
        simp [List.filter_cons, he]
      rw [hf, ih]
      simp [mapGet, h2]
    · have hf : (e :: r).filter (fun e => decide (e.1 ≠ k)) =
          e :: r.filter (fun e => decide (e.1 ≠ k)) := by
        simp [List.filter_cons, he]
      rw [hf]
      simp only [mapGet]
      rw [ih]

theorem mapGet_mapSet (m : StationMap) (k k2 : GoString) (v : station) :
    mapGet (mapSet m k v) k2 = if k = k2 then some v else mapGet m k2 := by
  by_cases h : k = k2
  · rw [if_pos h, ← h]
    exact mapGet_mapSet_self m k v
  · rw [if_neg h]
    simp only [mapSet, mapGet, h, if_false]
    exact mapGet_filter m k k2 h

theorem mapGet_foldl_csv (rows : List (List GoString)) (m : StationMap) (k : GoString) :
    mapGet (rows.foldl (fun m l => mapSet m (l.getD 1 []) (csvStation l)) m) k =
      match rows.reverse.find? (fun l => decide (l.getD 1 [] = k)) with
      | some l => some (csvStation l)
      | none => mapGet m k := by
  induction rows generalizing m with
  | nil => rfl
  | cons l r ih =>
    rw [List.foldl_cons, ih, List.reverse_cons, List.find?_append]
    cases hf : r.reverse.find? (fun l => decide (l.getD 1 [] = k)) with
    | some l2 => rfl
    | none =>
      simp only [Option.none_or, List.find?_cons, List.find?_nil, mapGet_mapSet]
      by_cases hk : l.getD 1 [] = k
      · rw [if_pos hk, decide_eq_true hk]
      · rw [if_neg hk, decide_eq_false hk]

/-! ## The merge: one record per NOAA station -/

theorem mergeStep_icao (stationsLIST : StationMap) (v : station)
    (h : KeyedByIcao stationsLIST) :
    ((mergeStep stationsLIST [] v).headD v).icao = v.icao := by
  unfold mergeStep
  cases hg : mapGet stationsLIST v.icao with
  | none => rfl
  | some vLIST =>
    have hk := h.2 _ (mapGet_mem stationsLIST v.icao vLIST hg)
    simp only [List.nil_append, List.headD_cons]
    split <;> exact hk

theorem merge_icao (order stationsLIST : StationMap)
    (ho : ∀ e ∈ order, e.2.icao = e.1) (h : KeyedByIcao stationsLIST) :
    (merge order stationsLIST).map station.icao = order.map Prod.fst := by
  rw [merge_eq_map, List.map_map]
  apply List.map_congr_left
  intro e he
  simp only [Function.comp]
  rw [mergeStep_icao stationsLIST e.2 h]
  exact ho e he

/-! ## The order of strings and the sort -/

theorem strLess_irrefl (a : GoString) : strLess a a = false := by
  induction a with
  | nil => rfl
  | cons c r ih => simp [strLess, ih]

theorem strLess_trans (a b c : GoString) (h1 : strLess a b = true) (h2 : strLess b c = true) :
    strLess a c = true := by
  induction a generalizing b c with
  | nil =>
    cases b with
    | nil => simp [strLess] at h1
    | cons y b =>
      cases c with
      | nil => simp [strLess] at h2
      | cons z c => rfl
  | cons x a ih =>
    cases b with
    | nil => simp [strLess] at h1
    | cons y b =>
      cases c with
      | nil => simp [strLess] at h2
      | cons z c =>
        simp only [strLess] at h1 h2 ⊢
        by_cases hxy : x < y
        · by_cases hyz : y < z
          · simp [lt_trans hxy hyz]
          · by_cases hzy : z < y
            · simp [hyz, hzy] at h2
            · have : y = z := le_antisymm (not_lt.mp hzy) (not_lt.mp hyz)
              subst this
              simp [hxy]
        · by_cases hyx : y < x
          · simp [hxy, hyx] at h1
          · have hxy2 : x = y := le_antisymm (not_lt.mp hyx) (not_lt.mp hxy)
            subst hxy2
            simp only [hxy, if_false] at h1
            by_cases hxz : x < z
            · simp [hxz]
            · by_cases hzx : z < x
              · simp [hxz, hzx] at h2
              · simp only [hxz, hzx, if_false] at h2 ⊢
                exact ih b c h1 h2

theorem strLess_total (a b : GoString) (h : a ≠ b) : strLess a b = true ∨ strLess b a = true := by
  induction a generalizing b with
  | nil =>
    cases b with
    | nil => exact absurd rfl h
    | cons y b => exact Or.inl rfl
  | cons x a ih =>
    cases b with
    | nil => exact Or.inr rfl
    | cons y b =>
      simp only [strLess]
      by_cases hxy : x < y
      · simp [hxy]
      · by_cases hyx : y < x
        · simp [hyx]
        · have hxy2 : x = y := le_antisymm (not_lt.mp hyx) (not_lt.mp hxy)
          subst hxy2
          simp only [hxy, if_false]
          exact ih b (fun hab => h (by rw [hab]))

theorem strLess_asymm (a b : GoString) (h : strLess a b = true) : strLess b a = false := by
  cases hb : strLess b a with
  | false => rfl
  | true =>
    have := strLess_trans a b a h hb
    rw [strLess_irrefl] at this
    exact absurd this (by decide)

theorem insertSorted_perm (less : station → station → Bool) (a : station) (l : List station) :
    (insertSorted less a l).Perm (a :: l) := by
  induction l with
  | nil => exact List.Perm.refl _
  | cons b r ih =>
    unfold insertSorted
    split
    · exact (List.Perm.cons b ih).trans (List.Perm.swap a b r)
    · exact List.Perm.refl _

theorem sortSlice_perm (less : station → station → Bool) (l : List station) :
    (sortSlice less l).Perm l := by
  induction l with
  | nil => exact List.Perm.refl _
  | cons a r ih =>
    unfold sortSlice
    exact (insertSorted_perm less a _).trans (List.Perm.cons a ih)

theorem insertSorted_sorted (a : station) (l : List station)
    (h : l.Pairwise (fun x y => lessIcao y x = false)) :
    (insertSorted lessIcao a l).Pairwise (fun x y => lessIcao y x = false) := by
  induction l with
  | nil => simp [insertSorted]
  | cons b r ih =>
    unfold insertSorted
    have hb := List.pairwise_cons.mp h
    by_cases hba : lessIcao b a = true
    · rw [if_pos hba]
      refine List.pairwise_cons.mpr ⟨?_, ih hb.2⟩
      intro y hy
      rcases List.mem_cons.mp ((insertSorted_perm lessIcao a r).mem_iff.mp hy) with rfl | hy
      · exact strLess_asymm _ _ hba
      · exact hb.1 y hy
    · rw [if_neg hba]
      have hba2 : lessIcao b a = false := by simpa using hba
      refine List.pairwise_cons.mpr ⟨?_, h⟩
      intro y hy
      rcases List.mem_cons.mp hy with rfl | hy
      · exact hba2
      · -- y after b: not (y < b); and not (b < a); so not (y < a)
        have hyb := hb.1 y hy
        cases hya : lessIcao y a with
        | false => rfl
        | true =>
          exfalso
          by_cases hab : a.icao = b.icao
          · unfold lessIcao at hya hyb
            rw [hab] at hya
            rw [hya] at hyb
            exact absurd hyb (by decide)
          · rcases strLess_total a.icao b.icao hab with h1 | h1
            · have := strLess_trans _ _ _ hya h1
              unfold lessIcao at hyb
              rw [this] at hyb
              exact absurd hyb (by decide)
            · unfold lessIcao at hba2
              rw [h1] at hba2
              exact absurd hba2 (by decide)

theorem sortSlice_sorted (l : List station) :
    (sortSlice lessIcao l).Pairwise (fun x y => lessIcao y x = false) := by
  induction l with
  | nil => simp [sortSlice]
  | cons a r ih =>
    unfold sortSlice
    exact insertSorted_sorted a _ ih

theorem strict_of_sorted_nodup (l : List station)
    (hs : l.Pairwise (fun x y => lessIcao y x = false)) (hn : (l.map station.icao).Nodup) :
    l.Pairwise (fun x y => lessIcao x y = true) := by
  have hne : l.Pairwise (fun x y => x.icao ≠ y.icao) := List.pairwise_map.mp hn
  refine (hs.and hne).imp ?_
  intro x y h
  rcases strLess_total x.icao y.icao h.2 with h1 | h1
  · exact h1
  · have h2 := h.1
    unfold lessIcao at h2
    rw [h1] at h2
    exact absurd h2 (by decide)

theorem sorted_perm_unique (l1 l2 : List station) (hp : l1.Perm l2)
    (hn : (l1.map station.icao).Nodup)
    (h1 : l1.Pairwise (fun x y => lessIcao y x = false))
    (h2 : l2.Pairwise (fun x y => lessIcao y x = false)) : l1 = l2 := by
  have hn2 : (l2.map station.icao).Nodup := (hp.map station.icao).nodup_iff.mp hn
  have s1 := strict_of_sorted_nodup l1 h1 hn
  have s2 := strict_of_sorted_nodup l2 h2 hn2
  have anti : IsAntisymm station (fun x y => lessIcao x y = true) :=
    ⟨fun a b hab hba => by
      have := strLess_asymm _ _ hab
      unfold lessIcao at hba
      rw [this] at hba
      exact absurd hba (by decide)⟩
  exact @List.eq_of_perm_of_sorted _ _ anti _ _ hp s1 s2

theorem merge_perm (order1 order2 stationsLIST : StationMap) (h : order1.Perm order2) :
    (merge order1 stationsLIST).Perm (merge order2 stationsLIST) := by
  rw [merge_eq_map, merge_eq_map]
  exact h.map _

theorem merge_nodup (text : GoString) (records : List (List GoString))
    (stationsNOAA stationsLIST order : StationMap)
    (hN : parseNOAA text = .ok stationsNOAA) (hL : parseCSV records = .ok stationsLIST)
    (horder : order.Perm stationsNOAA) :
    ((merge order stationsLIST).map station.icao).Nodup := by
  have hkN := (parseNOAA_keyed text stationsNOAA hN).1
  have hkL := parseCSV_keyed records stationsLIST hL
  rw [merge_icao order stationsLIST (fun e he => hkN.2 e (horder.mem_iff.mp he)) hkL]
  exact (horder.map Prod.fst).nodup_iff.mpr hkN.1

theorem foldlM_noaaLine_keys (lines : List GoString) (m m2 : StationMap)
    (h : lines.foldlM noaaLine m = .ok m2) :
    ∀ e ∈ m2, e ∈ m ∨ ∃ l ∈ lines, e.1 = TrimSpace ((l.take 24).drop 20) := by
  induction lines generalizing m with
  | nil =>
    intro e he
    simp only [List.foldlM_nil, pure, Except.pure, Except.ok.injEq] at h
    exact Or.inl (h ▸ he)
  | cons l r ih =>
    rw [List.foldlM_cons] at h
    intro e he
    rcases noaaLine_cases m l with h1 | ⟨st, -, -, h1⟩
    · rw [h1] at h
      rcases ih m h e he with h2 | ⟨l2, hl2, h2⟩
      · exact Or.inl h2
      · exact Or.inr ⟨l2, List.mem_cons_of_mem _ hl2, h2⟩
    · rw [h1] at h
      rcases ih _ h e he with h2 | ⟨l2, hl2, h2⟩
      · simp only [mapSet, List.mem_cons] at h2
        rcases h2 with rfl | h2
        · exact Or.inr ⟨l, List.mem_cons_self _ _, rfl⟩
        · exact Or.inl (List.mem_of_mem_filter h2)
      · exact Or.inr ⟨l2, List.mem_cons_of_mem _ hl2, h2⟩

theorem parseNOAA_keys (text : GoString) (m : StationMap) (h : parseNOAA text = .ok m) :
    ∀ e ∈ m, ∃ l ∈ splitLines text, e.1 = TrimSpace ((l.take 24).drop 20) := by
  unfold parseNOAA at h
  cases hf : (splitLines text).foldlM noaaLine [] with
  | error a =>
    rw [hf] at h
    exact Except.noConfusion h
  | ok m2 =>
    rw [hf] at h
    simp only [bind, Except.bind, pure, Except.pure] at h
    split at h
    · exact Except.noConfusion h
    · simp only [Except.ok.injEq] at h
      subst h
      intro e he
      rcases foldlM_noaaLine_keys _ _ _ hf e he with h2 | h2
      · simp at h2
      · exact h2

theorem mapGet_csv_some (rest : List (List GoString)) (A : GoString)
    (h : ∃ l ∈ rest, l.getD 1 [] = A) :
    ∃ l ∈ rest, l.getD 1 [] = A ∧
      mapGet (rest.foldl (fun m l => mapSet m (l.getD 1 []) (csvStation l)) []) A =
        some (csvStation l) := by
  rw [mapGet_foldl_csv]
  obtain ⟨l0, hl0, hk0⟩ := h
  cases hf : rest.reverse.find? (fun l => decide (l.getD 1 [] = A)) with
  | none =>
    exfalso
    have := List.find?_eq_none.mp hf l0 (List.mem_reverse.mpr hl0)
    rw [decide_eq_true hk0] at this
    exact this rfl
  | some l =>
    have h1 := List.find?_some hf
    have h2 := List.mem_of_find?_eq_some hf
    exact ⟨l, List.mem_reverse.mp h2, of_decide_eq_true h1, rfl⟩

theorem mapGet_csv_none (rest : List (List GoString)) (A : GoString)
    (h : ∀ l ∈ rest, l.getD 1 [] ≠ A) :
    mapGet (rest.foldl (fun m l => mapSet m (l.getD 1 []) (csvStation l)) []) A = none := by
  rw [mapGet_foldl_csv]
  have hf : rest.reverse.find? (fun l => decide (l.getD 1 [] = A)) = none := by
    rw [List.find?_eq_none]
    intro l hl
    rw [decide_eq_false (h l (List.mem_reverse.mp hl))]
    exact Bool.false_ne_true
  rw [hf]
  rfl

theorem merge_joined (order stationsLIST : StationMap) (A : GoString) (P S : station)
    (hmem : (A, P) ∈ order) (hA : P.icao = A) (hS : mapGet stationsLIST A = some S) :
    ∃ r ∈ merge order stationsLIST,
      r.name = S.name ∧ r.icao = S.icao ∧ r.iata = S.iata ∧ r.country = S.country := by
  refine ⟨(mergeStep stationsLIST [] P).headD P, ?_, ?_⟩
  · rw [merge_eq_map]
    exact List.mem_map.mpr ⟨(A, P), hmem, rfl⟩
  · unfold mergeStep
    rw [hA, hS]
    simp only [List.nil_append, List.headD_cons]
    split <;> simp

theorem merge_alone (order stationsLIST : StationMap) (A : GoString) (P : station)
    (hmem : (A, P) ∈ order) (hA : P.icao = A) (hS : mapGet stationsLIST A = none) :
    P ∈ merge order stationsLIST := by
  rw [merge_eq_map]
  refine List.mem_map.mpr ⟨(A, P), hmem, ?_⟩
  unfold mergeStep
  simp only [hA, hS, List.nil_append, List.headD_cons]

theorem main_noaa_empty (getNOAA getCSV : Except Unit Response)
    (lexCSV : GoString → Except Unit (List (List GoString)))
    (visit : StationMap → StationMap) (dataFile s : GoString)
    (hget : wget getNOAA = .ok (s, none))
    (hzero : (splitLines s).foldlM noaaLine [] = .ok []) :
    main getNOAA getCSV lexCSV visit dataFile = .error .fatalNoRecord := by
  have hp : parseNOAA s = .error .fatalNoRecord := by
    unfold parseNOAA
    rw [hzero]
    rfl
  unfold main
  rw [hget]
  simp only [bind, Except.bind, pure, Except.pure, ne_eq, not_true_eq_false, if_false, hp]

theorem main_csv_header_only (getNOAA getCSV : Except Unit Response)
    (lexCSV : GoString → Except Unit (List (List GoString)))
    (visit : StationMap → StationMap) (dataFile s s2 : GoString) (m1 : StationMap)
    (hd : List GoString)
    (hget : wget getNOAA = .ok (s, none)) (hN : parseNOAA s = .ok m1)
    (hget2 : wget getCSV = .ok (s2, none)) (hlex : lexCSV s2 = .ok [hd])
    (h18 : hd.length = 18) :
    main getNOAA getCSV lexCSV visit dataFile =
      .ok (rewriteFile dataFile (sortSlice lessIcao (merge (visit m1) []))) := by
  have hp : parseCSV [hd] = .ok [] := by
    rw [parseCSV_eq hd [] (by simpa using h18)]
    rfl
  unfold main
  rw [hget, hget2]
  simp only [bind, Except.bind, pure, Except.pure, ne_eq, not_true_eq_false, if_false, hN,
    hlex, hp]

/-! ## Bounds on the values computed by `deg2dec` -/

namespace F64

theorem roundTo_le_nat (neg : Bool) (n d : Nat) (k e : Int) (B : Nat) (hd : 0 < d)
    (he : e ≤ 0) (hx : (n : ℚ) / d * (2 : ℚ) ^ (k - e) ≤ (B : ℚ) * (2 : ℚ) ^ (-e)) :
    ∃ m e2, roundTo neg n d k e = .fin neg m e2 ∧ (m : ℚ) * (2 : ℚ) ^ e2 ≤ B := by
  have h20 : (0 : ℚ) < 2 := by norm_num
  have hek : (e - k) = -(k - e) := by ring
  have hden : 0 < d * 2 ^ (e - k).toNat := by positivity
  have hs := scaled_eq n d (k - e) hd
  rw [← hek] at hs
  have hdenq : (0 : ℚ) < ((d * 2 ^ (e - k).toNat : ℕ) : ℚ) := by exact_mod_cast hden
  -- `K = B · 2^(-e)` is a natural number
  have hK : (B : ℚ) * (2 : ℚ) ^ (-e) = ((B * 2 ^ (-e).toNat : ℕ) : ℚ) := by
    obtain ⟨j, hj⟩ := Int.eq_ofNat_of_zero_le (show (0 : ℤ) ≤ -e by omega)
    rw [hj, Int.toNat_ofNat, zpow_natCast]
    push_cast
    rfl
  rw [hK, ← hs, div_le_iff₀ hdenq] at hx
  have hx2 : n * 2 ^ (k - e).toNat ≤ B * 2 ^ (-e).toNat * (d * 2 ^ (e - k).toNat) := by
    exact_mod_cast hx
  unfold roundTo
  simp only
  generalize hnum : n * 2 ^ (k - e).toNat = num at hx2 ⊢
  generalize hdn : d * 2 ^ (e - k).toNat = den at hx2 hden ⊢
  generalize hKK : B * 2 ^ (-e).toNat = K at hx2 hK
  have hdm := Nat.div_add_mod num den
  have hq : num / den ≤ K := by
    rw [Nat.div_le_iff_le_mul_add_pred hden]
    have := Nat.mul_comm den K
    omega
  have hm : (if 2 * (num % den) < den then num / den
      else if den < 2 * (num % den) then num / den + 1
      else if num / den % 2 = 0 then num / den else num / den + 1) ≤ K := by
    split_ifs with c1 c2 c3
    · exact hq
    · -- remainder positive, so `num / den < K`
      have hr : 0 < num % den := by omega
      have : num / den < K := by
        by_contra hc
        have hge : K ≤ num / den := by omega
        have : K * den ≤ num / den * den := Nat.mul_le_mul_right den hge
        have h3 : den * (num / den) = num / den * den := Nat.mul_comm _ _
        omega
      omega
    · exact hq
    · have hr : 0 < num % den := by omega
      have : num / den < K := by
        by_contra hc
        have hge : K ≤ num / den := by omega
        have : K * den ≤ num / den * den := Nat.mul_le_mul_right den hge
        have h3 : den * (num / den) = num / den * den := Nat.mul_comm _ _
        omega
      omega
  generalize (if 2 * (num % den) < den then num / den
      else if den < 2 * (num % den) then num / den + 1
      else if num / den % 2 = 0 then num / den else num / den + 1) = m at hm ⊢
  have hmq : (m : ℚ) * (2 : ℚ) ^ e ≤ B := by
    have h1 : (m : ℚ) ≤ (B : ℚ) * (2 : ℚ) ^ (-e) := by
      rw [hK]
      exact_mod_cast hm
    have h2 : (m : ℚ) * (2 : ℚ) ^ e ≤ (B : ℚ) * (2 : ℚ) ^ (-e) * (2 : ℚ) ^ e :=
      mul_le_mul_of_nonneg_right h1 (le_of_lt (zpow_pos h20 _))
    rw [mul_assoc, ← zpow_add₀ (ne_of_gt h20)] at h2
    simpa using h2
  have h971 : ¬ e > 971 := by omega
  have h972 : ¬ e + 1 > 971 := by omega
  by_cases h53 : m = 2 ^ 53
  · rw [if_pos h53, if_neg h972]
    refine ⟨_, _, rfl, ?_⟩
    rw [h53] at hmq
    have : ((2 ^ 52 : ℕ) : ℚ) * (2 : ℚ) ^ (e + 1) = ((2 ^ 53 : ℕ) : ℚ) * (2 : ℚ) ^ e := by
      rw [zpow_add₀ (ne_of_gt h20)]
      push_cast
      ring
    rw [this]
    exact hmq
  · rw [if_neg h53, if_neg h971]
    exact ⟨_, _, rfl, hmq⟩

theorem round_le_nat (neg : Bool) (n d : Nat) (k : Int) (B : Nat) (hd : 0 < d)
    (hB : B < 2 ^ 53) (hx : (n : ℚ) / d * (2 : ℚ) ^ k ≤ B) :
    ∃ m e, round neg n d k = .fin neg m e ∧ (m : ℚ) * (2 : ℚ) ^ e ≤ B := by
  have h20 : (0 : ℚ) < 2 := by norm_num
  have h21 : (1 : ℚ) < 2 := by norm_num
  unfold round
  by_cases hn : n = 0
  · rw [if_pos hn]
    exact ⟨0, -1074, rfl, by simp⟩
  · rw [if_neg hn]
    obtain ⟨h1, -⟩ := ilog2_spec n d (Nat.pos_of_ne_zero hn) hd
    have hlg : ilog2 n d + k < 53 := by
      have h3 : (2 : ℚ) ^ (ilog2 n d + k) ≤ (n : ℚ) / d * (2 : ℚ) ^ k := by
        rw [zpow_add₀ (ne_of_gt h20)]
        exact mul_le_mul_of_nonneg_right h1 (le_of_lt (zpow_pos h20 _))
      have h4 : (B : ℚ) < (2 : ℚ) ^ (53 : ℤ) := by
        have : ((B : ℕ) : ℚ) < ((2 ^ 53 : ℕ) : ℚ) := by exact_mod_cast hB
        have h5 : ((2 ^ 53 : ℕ) : ℚ) = (2 : ℚ) ^ (53 : ℤ) := by norm_num
        rw [← h5]
        exact this
      exact (zpow_lt_zpow_iff_right₀ h21).mp (lt_of_le_of_lt (le_trans h3 hx) h4)
    have he : max (ilog2 n d + k - 52) (-1074) ≤ 0 := by
      apply max_le <;> omega
    apply roundTo_le_nat neg n d k _ B hd he
    have h6 : (2 : ℚ) ^ (k - max (ilog2 n d + k - 52) (-1074)) =
        (2 : ℚ) ^ k * (2 : ℚ) ^ (-max (ilog2 n d + k - 52) (-1074)) := by
      rw [← zpow_add₀ (ne_of_gt h20)]
      congr 1
    rw [h6, ← mul_assoc]
    exact mul_le_mul_of_nonneg_right hx (le_of_lt (zpow_pos h20 _))

theorem le_fin_iff (na nb : Bool) (ma mb : Nat) (ea eb : Int) :
    le (.fin na ma ea) (.fin nb mb eb) = true ↔
      toRat (.fin na ma ea) ≤ toRat (.fin nb mb eb) := by
  have h20 : (0 : ℚ) < 2 := by norm_num
  have hpow : ∀ (a e : ℤ), e ≤ a →
      (((2 ^ (a - e).toNat : ℕ) : ℤ) : ℚ) = (2 : ℚ) ^ a * (2 : ℚ) ^ (-e) := by
    intro a e h
    obtain ⟨j, hj⟩ := Int.eq_ofNat_of_zero_le (show (0 : ℤ) ≤ a - e by omega)
    rw [hj, Int.toNat_ofNat, ← zpow_add₀ (ne_of_gt h20)]
    have : a + -e = (j : ℤ) := by omega
    rw [this, zpow_natCast]
    push_cast
    rfl
  simp only [le, toRat, decide_eq_true_eq]
  have hc : ∀ (n : Bool) (m : ℕ) (a : ℤ), min ea eb ≤ a →
      (((if n = true then -1 else 1) * ((m * 2 ^ (a - min ea eb).toNat : ℕ) : ℤ) : ℤ) : ℚ) =
        ((if n = true then -1 else 1) * (m : ℚ) * (2 : ℚ) ^ a) * (2 : ℚ) ^ (-min ea eb) := by
    intro n m a h
    have := hpow a (min ea eb) h
    push_cast at this ⊢
    rw [this]
    cases n <;> simp <;> ring
  rw [← Int.cast_le (R := ℚ), hc na ma ea (min_le_left _ _), hc nb mb eb (min_le_right _ _)]
  exact mul_le_mul_right (zpow_pos h20 _)

theorem add_le_nat (ma mb : Nat) (ea eb : Int) (B : Nat) (hB : B < 2 ^ 53)
    (hx : (ma : ℚ) * (2 : ℚ) ^ ea + (mb : ℚ) * (2 : ℚ) ^ eb ≤ B) :
    ∃ m e, add (.fin false ma ea) (.fin false mb eb) = .fin false m e ∧
      (m : ℚ) * (2 : ℚ) ^ e ≤ B := by
  have h20 : (0 : ℚ) < 2 := by norm_num
  have hpow : ∀ (a e : ℤ), e ≤ a →
      (2 : ℚ) ^ (a - e).toNat = (2 : ℚ) ^ a * (2 : ℚ) ^ (-e) := by
    intro a e h
    obtain ⟨j, hj⟩ := Int.eq_ofNat_of_zero_le (show (0 : ℤ) ≤ a - e by omega)
    rw [hj, Int.toNat_ofNat, ← zpow_add₀ (ne_of_gt h20)]
    have : a + -e = (j : ℤ) := by omega
    rw [this, zpow_natCast]
  simp only [add, Bool.false_eq_true, if_false, one_mul, Bool.and_self]
  have hs : ((ma * 2 ^ (ea - min ea eb).toNat : ℕ) : ℤ) +
      ((mb * 2 ^ (eb - min ea eb).toNat : ℕ) : ℤ) =
      ((ma * 2 ^ (ea - min ea eb).toNat + mb * 2 ^ (eb - min ea eb).toNat : ℕ) : ℤ) := by
    push_cast
    rfl
  rw [hs]
  by_cases h0 : ((ma * 2 ^ (ea - min ea eb).toNat + mb * 2 ^ (eb - min ea eb).toNat : ℕ) : ℤ) = 0
  · rw [if_pos h0]
    exact ⟨0, -1074, rfl, by simp⟩
  · rw [if_neg h0]
    have hneg : decide (((ma * 2 ^ (ea - min ea eb).toNat +
        mb * 2 ^ (eb - min ea eb).toNat : ℕ) : ℤ) < 0) = false := by
      rw [decide_eq_false_iff_not]
      exact not_lt.mpr (Int.natCast_nonneg _)
    rw [hneg, Int.natAbs_ofNat]
    apply round_le_nat false _ 1 _ B Nat.one_pos hB
    rw [Nat.cast_one, div_one]
    push_cast
    rw [hpow ea _ (min_le_left _ _), hpow eb _ (min_le_right _ _)]
    have h3 : ((ma : ℚ) * ((2 : ℚ) ^ ea * (2 : ℚ) ^ (-min ea eb)) +
        (mb : ℚ) * ((2 : ℚ) ^ eb * (2 : ℚ) ^ (-min ea eb))) * (2 : ℚ) ^ min ea eb =
        ((ma : ℚ) * (2 : ℚ) ^ ea + (mb : ℚ) * (2 : ℚ) ^ eb) *
          ((2 : ℚ) ^ (-min ea eb) * (2 : ℚ) ^ min ea eb) := by ring
    rw [h3, ← zpow_add₀ (ne_of_gt h20)]
    simpa using hx

theorem div_sixty_le (ma : Nat) (ea : Int) (B : Nat) (hB : B < 2 ^ 53)
    (hx : (ma : ℚ) * (2 : ℚ) ^ ea ≤ 60 * (B : ℚ)) :
    ∃ m e, div (.fin false ma ea) sixty = .fin false m e ∧ (m : ℚ) * (2 : ℚ) ^ e ≤ B := by
  have h20 : (0 : ℚ) < 2 := by norm_num
  have h60 : sixty = .fin false 8444249301319680 (-47) := by decide
  rw [h60]
  simp only [div, Bool.xor_false, OfNat.ofNat_ne_zero, if_false]
  apply round_le_nat false ma _ _ B (by norm_num) hB
  have h1 : ((8444249301319680 : ℕ) : ℚ) = 60 * (2 : ℚ) ^ (47 : ℤ) := by norm_num
  have h2 : (2 : ℚ) ^ (ea - -47) = (2 : ℚ) ^ ea * (2 : ℚ) ^ (47 : ℤ) := by
    rw [← zpow_add₀ (ne_of_gt h20)]
    congr 1
  rw [h1, h2]
  have h3 : (ma : ℚ) / (60 * (2 : ℚ) ^ (47 : ℤ)) * ((2 : ℚ) ^ ea * (2 : ℚ) ^ (47 : ℤ)) =
      (ma : ℚ) * (2 : ℚ) ^ ea / 60 := by
    field_simp
    ring
  rw [h3, div_le_iff₀ (by norm_num)]
  linarith

theorem coord_le (D M B : Nat) (hB : 60 * B < 2 ^ 53) (h : D * 60 + M ≤ 60 * B) :
    ∃ m e, add (round false D 1 0) (div (round false M 1 0) sixty) = .fin false m e ∧
      (m : ℚ) * (2 : ℚ) ^ e ≤ B := by
  obtain ⟨md, ed, hd1, hd2⟩ := round_le_nat false D 1 0 D Nat.one_pos (by omega) (by simp)
  obtain ⟨mm, em, hm1, hm2⟩ := round_le_nat false M 1 0 M Nat.one_pos (by omega) (by simp)
  have hDB : D ≤ B := by omega
  obtain ⟨mq, eq, hq1, hq2⟩ := div_sixty_le mm em (B - D) (by omega) (by
    have h1 : (M : ℚ) ≤ 60 * ((B - D : ℕ) : ℚ) := by
      have : M ≤ 60 * (B - D) := by omega
      exact_mod_cast this
    linarith)
  rw [hd1, hm1, hq1]
  apply add_le_nat md mq ed eq B (by omega)
  have h2 : ((B - D : ℕ) : ℚ) = (B : ℚ) - (D : ℚ) := by
    rw [Nat.cast_sub hDB]
  rw [h2] at hq2
  linarith

theorem abs_le_of_toRat (neg : Bool) (m : Nat) (e : Int) (B : F64) (b : Nat)
    (hB : ∃ mb eb, B = .fin false mb eb ∧ (mb : ℚ) * (2 : ℚ) ^ eb = b)
    (h : (m : ℚ) * (2 : ℚ) ^ e ≤ b) :
    le (abs (.fin neg m e)) B = true := by
  obtain ⟨mb, eb, rfl, hb⟩ := hB
  simp only [abs]
  rw [le_fin_iff]
  simp only [toRat, Bool.false_eq_true, if_false, one_mul]
  rw [hb]
  exact h

end F64

theorem ParseFloat_two_digits :
    ∀ a b : Fin 10, ParseFloat [Char.ofNat (48 + a.val), Char.ofNat (48 + b.val)] =
      (F64.round false (10 * a.val + b.val) 1 0, none) := by
  decide

theorem ParseFloat_three_digits :
    ∀ a b c : Fin 10,
      ParseFloat [Char.ofNat (48 + a.val), Char.ofNat (48 + b.val), Char.ofNat (48 + c.val)] =
        (F64.round false (100 * a.val + 10 * b.val + c.val) 1 0, none) := by
  decide

theorem not_sentinel_of_le (x B : F64) (hB : F64.le (F64.ofNat 999) B = false)
    (h : F64.le (F64.abs x) B = true) : F64.eq x (F64.ofNat 999) = false := by
  have h999 : F64.ofNat 999 = .fin false 8787296929185792 (-43) := by decide
  cases x with
  | nan => rfl
  | inf b => rw [h999]; rfl
  | fin n m e =>
    cases hq : F64.eq (.fin n m e) (F64.ofNat 999) with
    | false => rfl
    | true =>
      exfalso
      rw [h999] at hq
      simp only [F64.eq, OfNat.ofNat_ne_zero, and_false, if_false, Bool.and_eq_true,
        beq_iff_eq] at hq
      obtain ⟨⟨-, hm⟩, he⟩ := hq
      subst hm
      subst he
      simp only [F64.abs] at h
      rw [← h999, hB] at h
      exact absurd h (by decide)

theorem signed_abs_le (x : F64) (p : Prop) [Decidable p] (m : Nat) (e : Int) (B : F64)
    (b : Nat) (hx : x = .fin false m e) (hc : F64.Canonical x)
    (hB : ∃ mb eb, B = .fin false mb eb ∧ (mb : ℚ) * (2 : ℚ) ^ eb = b)
    (h : (m : ℚ) * (2 : ℚ) ^ e ≤ b) :
    F64.le (F64.abs (if p then F64.mul x minusOne else x)) B = true := by
  by_cases hp : p
  · rw [if_pos hp, F64.mul_minusOne x hc, hx]
    exact F64.abs_le_of_toRat true m e B b hB h
  · rw [if_neg hp, hx]
    exact F64.abs_le_of_toRat false m e B b hB h

/-! ## The rewrite of a data file whose lines end with `\n` -/

theorem cutLine_line (l rest : GoString) (h : '\n' ∉ l) :
    cutLine (l ++ '\n' :: rest) = (l, some rest) := by
  induction l with
  | nil => simp [cutLine]
  | cons c r ih =>
    have hc : c ≠ '\n' := fun hc => h (hc ▸ List.mem_cons_self _ _)
    have hr : '\n' ∉ r := fun hr => h (List.mem_cons_of_mem _ hr)
    have h2 := ih hr
    simp only [List.cons_append, cutLine, hc, if_false]
    show (c :: (cutLine (r ++ '\n' :: rest)).1, (cutLine (r ++ '\n' :: rest)).2) = _
    rw [h2]

theorem scanMarker_lines (pre : List GoString) (marker post : GoString) (fuel acc : Nat)
    (hfuel : pre.length < fuel)
    (hpre : ∀ l ∈ pre, '\n' ∉ l ∧ l.length ≤ 65535 ∧ l.getLast? ≠ some '\r' ∧
      Contains l "var AdList".toList = false)
    (hm1 : '\n' ∉ marker) (hm2 : marker.length ≤ 65535) (hm3 : marker.getLast? ≠ some '\r')
    (hm4 : Contains marker "var AdList".toList = true) :
    scanMarker fuel ((pre.map (fun l => l ++ ['\n'])).flatten ++ marker ++ '\n' :: post) acc =
      acc + ((pre.map (fun l => l ++ ['\n'])).flatten ++ marker ++ ['\n']).length := by
  induction pre generalizing fuel acc with
  | nil =>
    obtain ⟨f, rfl⟩ : ∃ f, fuel = f + 1 := ⟨fuel - 1, by simp at hfuel; omega⟩
    simp only [List.map_nil, List.flatten_nil, List.nil_append]
    unfold scanMarker
    rw [cutLine_line marker post hm1]
    have he : (marker ++ '\n' :: post).isEmpty = false := by
      cases marker <;> rfl
    simp only [he, Bool.false_eq_true, if_false, dropCR, hm3, hm4, if_true,
      show ¬ 65535 < marker.length by omega, List.length_append, List.length_singleton]
  | cons l r ih =>
    obtain ⟨f, rfl⟩ : ∃ f, fuel = f + 1 := ⟨fuel - 1, by simp at hfuel; omega⟩
    obtain ⟨hl1, hl2, hl3, hl4⟩ := hpre l (List.mem_cons_self _ _)
    have hdata : ((l :: r).map (fun l => l ++ ['\n'])).flatten ++ marker ++ '\n' :: post =
        l ++ '\n' :: ((r.map (fun l => l ++ ['\n'])).flatten ++ marker ++ '\n' :: post) := by
      simp
    rw [hdata]
    unfold scanMarker
    rw [cutLine_line l _ hl1]
    have he : (l ++ '\n' :: ((r.map (fun l => l ++ ['\n'])).flatten ++ marker ++
        '\n' :: post)).isEmpty = false := by
      cases l <;> rfl
    simp only [he, Bool.false_eq_true, if_false, dropCR, hl3, hl4,
      show ¬ 65535 < l.length by omega]
    rw [ih f (acc + (l.length + 1)) (by simp at hfuel; omega)
      (fun l2 h2 => hpre l2 (List.mem_cons_of_mem _ h2))]
    simp only [List.map_cons, List.flatten_cons, List.length_append, List.length_singleton,
      List.length_cons, List.length_nil]
    omega

theorem rewriteFile_frame (pre : List GoString) (marker post : GoString) (final : List station)
    (hpre : ∀ l ∈ pre, '\n' ∉ l ∧ l.length ≤ 65535 ∧ l.getLast? ≠ some '\r' ∧
      Contains l "var AdList".toList = false)
    (hm1 : '\n' ∉ marker) (hm2 : marker.length ≤ 65535) (hm3 : marker.getLast? ≠ some '\r')
    (hm4 : Contains marker "var AdList".toList = true) :
    rewriteFile ((pre.map (fun l => l ++ ['\n'])).flatten ++ marker ++ '\n' :: post) final =
      (pre.map (fun l => l ++ ['\n'])).flatten ++ marker ++ ['\n'] ++ recordLines final := by
  unfold rewriteFile
  have hlen : pre.length <
      ((pre.map (fun l => l ++ ['\n'])).flatten ++ marker ++ '\n' :: post).length := by
    have h1 : pre.length ≤ ((pre.map (fun l => l ++ ['\n'])).flatten).length := by
      induction pre with
      | nil => simp
      | cons l r ih =>
        have := ih (fun l2 h2 => hpre l2 (List.mem_cons_of_mem _ h2))
        simp only [List.map_cons, List.flatten_cons, List.length_append, List.length_cons,
          List.length_nil]
        omega
    simp only [List.length_append, List.length_cons]
    omega
  rw [scanMarker_lines pre marker post _ 0 hlen hpre hm1 hm2 hm3 hm4]
  congr 1
  unfold Truncate
  have hsplit : (pre.map (fun l => l ++ ['\n'])).flatten ++ marker ++ '\n' :: post =
      ((pre.map (fun l => l ++ ['\n'])).flatten ++ marker ++ ['\n']) ++ post := by
    simp
  rw [hsplit, Nat.zero_add, List.take_left']
  · have : ((pre.map (fun l => l ++ ['\n'])).flatten ++ marker ++ ['\n']).length -
        ((pre.map (fun l => l ++ ['\n'])).flatten ++ marker ++ ['\n'] ++ post).length = 0 := by
      simp only [List.length_append]
      omega
    rw [this]
    simp
  · rfl

/-- A slice whose bounds are out of range panics. -/
theorem slice_err (s : GoString) (lo hi : Nat) (h : ¬ (lo ≤ hi ∧ hi ≤ s.length)) :
    slice s lo hi = .error .panic := by
  simp only [slice, h, if_false]

/-- An index past the end of the string panics. -/
theorem index_err (s : GoString) (i : Nat) (h : s.length ≤ i) :
    index s i = .error .panic := by
  simp [index, List.getElem?_eq_none h]

/-- On every pair of strings `deg2dec` panics, returns the sentinel pair, or
    the strings are long enough for all its slices and indices. -/
theorem deg2dec_cases (lat long : GoString) :
    deg2dec lat long = .error .panic ∨
    deg2dec lat long = .ok (sentinel, sentinel) ∨
    (6 ≤ lat.length ∧ 7 ≤ long.length) := by
  by_cases h1 : 2 ≤ lat.length
  · by_cases h2 : 5 ≤ lat.length
    · by_cases h3 : 3 ≤ long.length
      · by_cases h4 : 6 ≤ long.length
        · by_cases herr : (ParseFloat ((long.take 6).drop 4)).2 ≠ none
          · right; left
            unfold deg2dec
            rw [slice_ok lat 0 2 (by omega) (by omega), slice_ok lat 3 5 (by omega) (by omega),
              slice_ok long 0 3 (by omega) (by omega), slice_ok long 4 6 (by omega) (by omega)]
            simp only [bind, Except.bind, pure, Except.pure]
            rw [if_pos herr]
          · by_cases h5 : 6 ≤ lat.length
            · by_cases h6 : 7 ≤ long.length
              · exact Or.inr (Or.inr ⟨h5, h6⟩)
              · left
                unfold deg2dec
                rw [slice_ok lat 0 2 (by omega) (by omega),
                  slice_ok lat 3 5 (by omega) (by omega),
                  slice_ok long 0 3 (by omega) (by omega),
                  slice_ok long 4 6 (by omega) (by omega),
                  index_ok lat 5 (by omega), index_err long 6 (by omega)]
                simp only [bind, Except.bind, pure, Except.pure]
                rw [if_neg herr]
            · left
              unfold deg2dec
              rw [slice_ok lat 0 2 (by omega) (by omega),
                slice_ok lat 3 5 (by omega) (by omega),
                slice_ok long 0 3 (by omega) (by omega),
                slice_ok long 4 6 (by omega) (by omega),
                index_err lat 5 (by omega)]
              simp only [bind, Except.bind, pure, Except.pure]
              rw [if_neg herr]
        · left
          unfold deg2dec
          rw [slice_ok lat 0 2 (by omega) (by omega), slice_ok lat 3 5 (by omega) (by omega),
            slice_ok long 0 3 (by omega) (by omega), slice_err long 4 6 (by omega)]
          rfl
      · left
        unfold deg2dec
        rw [slice_ok lat 0 2 (by omega) (by omega), slice_ok lat 3 5 (by omega) (by omega),
          slice_err long 0 3 (by omega)]
        rfl
    · left
      unfold deg2dec
      rw [slice_ok lat 0 2 (by omega) (by omega), slice_err lat 3 5 (by omega)]
      rfl
  · left
    unfold deg2dec
    rw [slice_err lat 0 2 (by omega)]
    rfl

/-! ## The claims -/

/-- C1, as stated, fails: the merge looks at the latitude only.  The NOAA line
    `lineANC` and the CSV row of the same station with latitude `999` and
    longitude `5` (both parse, so the row's coordinates are not the sentinel
    pair) give a record with the NOAA coordinates, not the row's own. -/
theorem C1_counterexample :
    ¬ ∀ (text : GoString) (records : List (List GoString)) (stationsNOAA stationsLIST order : StationMap)
        (A : GoString) (P S : station),
        parseNOAA text = .ok stationsNOAA → parseCSV records = .ok stationsLIST →
        order.Perm stationsNOAA → (A, P) ∈ stationsNOAA → mapGet stationsLIST A = some S →
        ∃ r ∈ merge order stationsLIST,
          r.name = S.name ∧ r.iata = S.iata ∧ r.country = S.country ∧
          ((F64.eq S.lat sentinel = true ∧ F64.eq S.long sentinel = true) →
            r.lat = P.lat ∧ r.long = P.long) ∧
          (¬ (F64.eq S.lat sentinel = true ∧ F64.eq S.long sentinel = true) →
            r.lat = S.lat ∧ r.long = S.long) := by
  intro h
  obtain ⟨r, hr, -, -, -, -, h2⟩ := h lineANC [csvHeader, csvRowOf "PANC" "Ted Stevens" "999" "5"]
    [("PANC".toList, stationANC)]
    [("PANC".toList, ⟨"Ted Stevens (Anchorage)".toList, "PANC".toList, "ANC".toList, "US".toList,
      F64.ofNat 999, F64.ofNat 5⟩)]
    [("PANC".toList, stationANC)] "PANC".toList stationANC
    ⟨"Ted Stevens (Anchorage)".toList, "PANC".toList, "ANC".toList, "US".toList,
      F64.ofNat 999, F64.ofNat 5⟩
    (by decide) (by decide) (List.Perm.refl _) (by decide) (by decide)
  have hm : merge [("PANC".toList, stationANC)]
      [("PANC".toList, ⟨"Ted Stevens (Anchorage)".toList, "PANC".toList, "ANC".toList,
        "US".toList, F64.ofNat 999, F64.ofNat 5⟩)] =
      [⟨"Ted Stevens (Anchorage)".toList, "PANC".toList, "ANC".toList, "US".toList,
        stationANC.lat, stationANC.long⟩] := by decide
  rw [hm, List.mem_singleton] at hr
  subst hr
  have h3 := h2 (by decide)
  revert h3
  decide

/-- C1, amended: for an identifier `A` of the NOAA map that has an entry `S` in
    the CSV map, the merged sequence holds the CSV record (name, identifier,
    iata, country); both its coordinates are the NOAA record's when the CSV
    latitude equals `999.0`, whatever the CSV longitude, and are the CSV
    record's own otherwise.  `order` is any order of visit of the NOAA map. -/
theorem C1_merge_secondary_record (stationsNOAA stationsLIST order : StationMap)
    (A : GoString) (P S : station)
    (horder : order.Perm stationsNOAA) (hP : (A, P) ∈ stationsNOAA) (hA : P.icao = A)
    (hS : mapGet stationsLIST A = some S) :
    ∃ r ∈ merge order stationsLIST,
      r.name = S.name ∧ r.icao = S.icao ∧ r.iata = S.iata ∧ r.country = S.country ∧
      (F64.eq S.lat sentinel = true → r.lat = P.lat ∧ r.long = P.long) ∧
      (F64.eq S.lat sentinel = false → r.lat = S.lat ∧ r.long = S.long) := by
  have hmem : (A, P) ∈ order := horder.mem_iff.mpr hP
  refine ⟨(mergeStep stationsLIST [] P).headD P, ?_, ?_⟩
  · rw [merge_eq_map]
    exact List.mem_map.mpr ⟨(A, P), hmem, rfl⟩
  · unfold mergeStep
    rw [hA, hS]
    simp only [List.nil_append, List.headD_cons]
    cases hs : F64.eq S.lat sentinel <;> simp

/-- The two examples of C1: the NOAA record (10, 20) with a CSV record named
    `X` at (999, 999) gives `X` at (10, 20); with a CSV record at (5, 6) it
    gives (5, 6). -/
theorem C1_merge_secondary_record_witness :
    (∃ r ∈ merge [("A".toList, ⟨"N".toList, "A".toList, [], [], F64.ofNat 10, F64.ofNat 20⟩)]
        [("A".toList, ⟨"X".toList, "A".toList, [], [], F64.ofNat 999, F64.ofNat 999⟩)],
      r.name = "X".toList ∧ r.icao = "A".toList ∧ r.iata = [] ∧ r.country = [] ∧
      (F64.eq (F64.ofNat 999) sentinel = true → r.lat = F64.ofNat 10 ∧ r.long = F64.ofNat 20) ∧
      (F64.eq (F64.ofNat 999) sentinel = false →
        r.lat = F64.ofNat 999 ∧ r.long = F64.ofNat 999)) ∧
    merge [("A".toList, ⟨"N".toList, "A".toList, [], [], F64.ofNat 10, F64.ofNat 20⟩)]
        [("A".toList, ⟨"X".toList, "A".toList, [], [], F64.ofNat 999, F64.ofNat 999⟩)] =
      [⟨"X".toList, "A".toList, [], [], F64.ofNat 10, F64.ofNat 20⟩] ∧
    merge [("A".toList, ⟨"N".toList, "A".toList, [], [], F64.ofNat 10, F64.ofNat 20⟩)]
        [("A".toList, ⟨"X".toList, "A".toList, [], [], F64.ofNat 5, F64.ofNat 6⟩)] =
      [⟨"X".toList, "A".toList, [], [], F64.ofNat 5, F64.ofNat 6⟩] :=
  ⟨C1_merge_secondary_record
      [("A".toList, ⟨"N".toList, "A".toList, [], [], F64.ofNat 10, F64.ofNat 20⟩)]
      [("A".toList, ⟨"X".toList, "A".toList, [], [], F64.ofNat 999, F64.ofNat 999⟩)]
      [("A".toList, ⟨"N".toList, "A".toList, [], [], F64.ofNat 10, F64.ofNat 20⟩)]
      "A".toList ⟨"N".toList, "A".toList, [], [], F64.ofNat 10, F64.ofNat 20⟩
      ⟨"X".toList, "A".toList, [], [], F64.ofNat 999, F64.ofNat 999⟩
      (List.Perm.refl _) (by decide) (by decide) (by decide),
    by decide, by decide⟩

/-- C2: for the maps that the two parsers build, and any order of visit of the
    NOAA map, the identifiers of the merged sequence are the keys of the NOAA
    map, each once; an identifier that is not a key of the NOAA map (so one that
    only the CSV map has) is the identifier of no merged record. -/
theorem C2_merge_completeness (text : GoString) (records : List (List GoString))
    (stationsNOAA stationsLIST order : StationMap)
    (hN : parseNOAA text = .ok stationsNOAA) (hL : parseCSV records = .ok stationsLIST)
    (horder : order.Perm stationsNOAA) :
    ((merge order stationsLIST).map station.icao).Perm (stationsNOAA.map Prod.fst) ∧
    ((merge order stationsLIST).map station.icao).Nodup ∧
    (merge order stationsLIST).length = stationsNOAA.length ∧
    ∀ id, mapGet stationsNOAA id = none → ∀ r ∈ merge order stationsLIST, r.icao ≠ id := by
  have hkN := (parseNOAA_keyed text stationsNOAA hN).1
  have hkL := parseCSV_keyed records stationsLIST hL
  have hi : (merge order stationsLIST).map station.icao = order.map Prod.fst :=
    merge_icao order stationsLIST (fun e he => hkN.2 e (horder.mem_iff.mp he)) hkL
  have hp : (order.map Prod.fst).Perm (stationsNOAA.map Prod.fst) := horder.map Prod.fst
  refine ⟨hi ▸ hp, hi ▸ (hp.nodup_iff.mpr hkN.1), ?_, ?_⟩
  · have := congrArg List.length hi
    simp only [List.length_map] at this
    rw [this, horder.length_eq]
  · intro id hid r hr heq
    have h1 : r.icao ∈ (merge order stationsLIST).map station.icao := List.mem_map_of_mem _ hr
    rw [hi] at h1
    have h2 : id ∈ stationsNOAA.map Prod.fst := hp.mem_iff.mp (heq ▸ h1)
    exact (mapGet_none stationsNOAA id).mp hid h2

/-- C2 on the sample files: one NOAA station (PANC) and two CSV rows (PANC and
    PAFA); the merged sequence has the one identifier PANC. -/
theorem C2_merge_completeness_witness :
    parseNOAA lineANC = .ok [("PANC".toList, stationANC)] ∧
    (merge [("PANC".toList, stationANC)]
      [("PAFA".toList, csvStation (csvRowOf "PAFA" "Fairbanks" "64.8" "-147.8")),
       ("PANC".toList, csvStation (csvRowOf "PANC" "Ted Stevens" "61.1" "-149.9"))]).map
        station.icao = ["PANC".toList] ∧
    ((merge [("PANC".toList, stationANC)]
      [("PAFA".toList, csvStation (csvRowOf "PAFA" "Fairbanks" "64.8" "-147.8")),
       ("PANC".toList, csvStation (csvRowOf "PANC" "Ted Stevens" "61.1" "-149.9"))]).map
        station.icao).Nodup :=
  ⟨by decide, by decide,
    (C2_merge_completeness lineANC
      [csvHeader, csvRowOf "PANC" "Ted Stevens" "61.1" "-149.9",
        csvRowOf "PAFA" "Fairbanks" "64.8" "-147.8"]
      [("PANC".toList, stationANC)]
      [("PAFA".toList, csvStation (csvRowOf "PAFA" "Fairbanks" "64.8" "-147.8")),
       ("PANC".toList, csvStation (csvRowOf "PANC" "Ted Stevens" "61.1" "-149.9"))]
      [("PANC".toList, stationANC)] (by decide) (by decide) (List.Perm.refl _)).2.1⟩

/-- C3: for the maps that the two parsers build, a record `P` of the NOAA map
    whose identifier `A` has no entry in the CSV map is in the merged sequence
    as it is; its identifier is `A` and its secondary code is empty. -/
theorem C3_merge_primary_only (text : GoString) (records : List (List GoString))
    (stationsNOAA stationsLIST order : StationMap) (A : GoString) (P : station)
    (hN : parseNOAA text = .ok stationsNOAA) (hL : parseCSV records = .ok stationsLIST)
    (horder : order.Perm stationsNOAA)
    (hP : mapGet stationsNOAA A = some P) (hS : mapGet stationsLIST A = none) :
    P ∈ merge order stationsLIST ∧ P.icao = A ∧ P.iata = [] := by
  have hk := parseNOAA_keyed text stationsNOAA hN
  have hmemN : (A, P) ∈ stationsNOAA := mapGet_mem stationsNOAA A P hP
  have hA : P.icao = A := hk.1.2 _ hmemN
  refine ⟨?_, hA, hk.2 _ hmemN⟩
  rw [merge_eq_map]
  refine List.mem_map.mpr ⟨(A, P), horder.mem_iff.mpr hmemN, ?_⟩
  unfold mergeStep
  simp only [hA, hS, List.nil_append, List.headD_cons]

/-- C3 on the sample files: the CSV file has no row for PANC, the merged
    sequence is the NOAA record of PANC. -/
theorem C3_merge_primary_only_witness :
    merge [("PANC".toList, stationANC)]
      [("PAFA".toList, csvStation (csvRowOf "PAFA" "Fairbanks" "64.8" "-147.8"))] =
      [stationANC] ∧
    stationANC ∈ merge [("PANC".toList, stationANC)]
      [("PAFA".toList, csvStation (csvRowOf "PAFA" "Fairbanks" "64.8" "-147.8"))] ∧
    stationANC.icao = "PANC".toList ∧ stationANC.iata = [] :=
  ⟨by decide,
    C3_merge_primary_only lineANC [csvHeader, csvRowOf "PAFA" "Fairbanks" "64.8" "-147.8"]
      [("PANC".toList, stationANC)]
      [("PAFA".toList, csvStation (csvRowOf "PAFA" "Fairbanks" "64.8" "-147.8"))]
      [("PANC".toList, stationANC)] "PANC".toList stationANC
      (by decide) (by decide) (List.Perm.refl _) (by decide) (by decide)⟩

/-- C4, at the failing input `deg2dec("XX 10N", "150 30W")`: the latitude
    degrees `XX` do not parse (`ErrSyntax`, value 0), the three other fields do,
    and the result is not the sentinel pair but `(0 + 10/60, -150.5)`: the
    error of the first three `ParseFloat` calls is overwritten by the fourth
    before it is tested. -/
theorem C4_deg2dec_error_lost :
    ParseFloat "XX".toList = (.fin false 0 (-1074), some NumError.ErrSyntax) ∧
    (ParseFloat "30".toList).2 = none ∧
    deg2dec "XX 10N".toList "150 30W".toList =
      .ok (F64.round false 10 60 0, F64.round true 301 2 0) ∧
    deg2dec "XX 10N".toList "150 30W".toList ≠ .ok (sentinel, sentinel) := by
  decide

/-- C5: when the strings hold the hemisphere letters (`lat` has 6 bytes or
    more, `long` 7 or more) and the four fields `lat[:2]`, `lat[3:5]`,
    `long[:3]`, `long[4:6]` parse, `deg2dec` returns degrees + minutes/60 for
    each axis, with the opposite sign exactly when the letter `lat[5]` is `S`,
    respectively `long[6]` is `W`. -/
theorem C5_deg2dec_value (lat long : GoString) (hlat : 6 ≤ lat.length) (hlong : 7 ≤ long.length)
    (h1 : (ParseFloat (lat.take 2)).2 = none)
    (h2 : (ParseFloat ((lat.take 5).drop 3)).2 = none)
    (h3 : (ParseFloat (long.take 3)).2 = none)
    (h4 : (ParseFloat ((long.take 6).drop 4)).2 = none) :
    deg2dec lat long = .ok
      (if lat[5]? = some 'S' then
          F64.neg (F64.add (ParseFloat (lat.take 2)).1
            (F64.div (ParseFloat ((lat.take 5).drop 3)).1 (F64.ofNat 60)))
        else
          F64.add (ParseFloat (lat.take 2)).1
            (F64.div (ParseFloat ((lat.take 5).drop 3)).1 (F64.ofNat 60)),
       if long[6]? = some 'W' then
          F64.neg (F64.add (ParseFloat (long.take 3)).1
            (F64.div (ParseFloat ((long.take 6).drop 4)).1 (F64.ofNat 60)))
        else
          F64.add (ParseFloat (long.take 3)).1
            (F64.div (ParseFloat ((long.take 6).drop 4)).1 (F64.ofNat 60))) := by
  rw [deg2dec_eq lat long hlat hlong]
  simp only [h4, ne_eq, not_true_eq_false, if_false, F64.mul_minusOne _ (F64.add_canonical _ _)]
  rfl

/-- C5 at `deg2dec("61 10N", "150 30W")`: the latitude is the `float64`
    `8608443037734229 · 2^-47`, which lies between 61.1665 and 61.1675, and the
    longitude is `-150.5`. -/
theorem C5_deg2dec_value_witness :
    deg2dec "61 10N".toList "150 30W".toList =
      .ok (F64.fin false 8608443037734229 (-47), F64.round true 301 2 0) ∧
    611665 * 2 ^ 47 ≤ 8608443037734229 * 10000 ∧
    8608443037734229 * 10000 ≤ 611675 * 2 ^ 47 := by
  refine ⟨?_, by decide, by decide⟩
  rw [C5_deg2dec_value "61 10N".toList "150 30W".toList (by decide) (by decide) (by decide)
    (by decide) (by decide) (by decide)]
  decide

/-- C6: a line is retained exactly when its length is 83, its byte 62 is `X`
    and its field `l[20:24]` is not blank.  A retained line stores one record
    under the trimmed field, whatever the map was; any other line leaves the
    map as it was. -/
theorem C6_noaa_retention (l : GoString) :
    ((l.length = 83 ∧ l[62]? = some 'X' ∧ TrimSpace ((l.take 24).drop 20) ≠ []) ∧
      ∃ st, ∀ m, noaaLine m l = .ok (mapSet m (TrimSpace ((l.take 24).drop 20)) st)) ∨
    (¬ (l.length = 83 ∧ l[62]? = some 'X' ∧ TrimSpace ((l.take 24).drop 20) ≠ []) ∧
      ∀ m, noaaLine m l = .ok m) := by
  by_cases h : l.length = 83 ∧ l[62]? = some 'X' ∧ TrimSpace ((l.take 24).drop 20) ≠ []
  · left
    refine ⟨h, ?_⟩
    obtain ⟨lt, lg, hd, -⟩ := noaaLine_keep [] l h
    refine ⟨{ name := TrimSpace ((l.take 20).drop 3)
              icao := TrimSpace ((l.take 24).drop 20)
              iata := []
              country := (l.take 83).drop 81
              lat := lt
              long := lg }, fun m => ?_⟩
    obtain ⟨lt2, lg2, hd2, hk2⟩ := noaaLine_keep m l h
    rw [hd] at hd2
    simp only [Except.ok.injEq, Prod.mk.injEq] at hd2
    rw [hd2.1, hd2.2]
    exact hk2
  · right
    exact ⟨h, fun m => noaaLine_skip m l h⟩

/-- C7, as stated, fails for the country: the line `lineBlank`, whose bytes
    81 and 82 are a blank and `U`, is retained and its record has the country
    `" U"`, not the trimmed `"U"`. -/
theorem C7_counterexample :
    ¬ ∀ (m : StationMap) (l : GoString),
      l.length = 83 ∧ l[62]? = some 'X' ∧ TrimSpace ((l.take 24).drop 20) ≠ [] →
      ∃ st, noaaLine m l = .ok (mapSet m (TrimSpace ((l.take 24).drop 20)) st) ∧
        st.name = TrimSpace ((l.take 20).drop 3) ∧
        st.icao = TrimSpace ((l.take 24).drop 20) ∧
        st.country = TrimSpace ((l.take 83).drop 81) := by
  intro h
  obtain ⟨st, h1, -, -, h4⟩ := h [] lineBlank (by decide)
  have h2 : noaaLine [] lineBlank =
      .ok [("PANC".toList, { stationANC with country := " U".toList })] := by decide
  rw [h2] at h1
  simp only [mapSet, List.filter_nil, Except.ok.injEq, List.cons.injEq, Prod.mk.injEq,
    and_true] at h1
  rw [← h1.2] at h4
  revert h4
  decide

/-- C7, amended: for a retained line the record is stored under the trimmed
    `l[20:24]`; its name is the trimmed `l[3:20]`, its identifier the trimmed
    `l[20:24]`, its country the two bytes `l[81:83]` as they are, its secondary
    code is empty and its coordinates are those of `deg2dec` on `l[39:46]` and
    `l[47:55]`. -/
theorem C7_noaa_extraction (m : StationMap) (l : GoString)
    (h : l.length = 83 ∧ l[62]? = some 'X' ∧ TrimSpace ((l.take 24).drop 20) ≠ []) :
    ∃ lt lg, deg2dec ((l.take 46).drop 39) ((l.take 55).drop 47) = .ok (lt, lg) ∧
      noaaLine m l = .ok (mapSet m (TrimSpace ((l.take 24).drop 20))
        { name := TrimSpace ((l.take 20).drop 3)
          icao := TrimSpace ((l.take 24).drop 20)
          iata := []
          country := (l.take 83).drop 81
          lat := lt
          long := lg }) ∧
      mapGet (mapSet m (TrimSpace ((l.take 24).drop 20))
        { name := TrimSpace ((l.take 20).drop 3)
          icao := TrimSpace ((l.take 24).drop 20)
          iata := []
          country := (l.take 83).drop 81
          lat := lt
          long := lg }) (TrimSpace ((l.take 24).drop 20)) =
        some
          { name := TrimSpace ((l.take 20).drop 3)
            icao := TrimSpace ((l.take 24).drop 20)
            iata := []
            country := (l.take 83).drop 81
            lat := lt
            long := lg } := by
  obtain ⟨lt, lg, hd, hk⟩ := noaaLine_keep m l h
  exact ⟨lt, lg, hd, hk, mapGet_mapSet_self _ _ _⟩

/-- C7 on `lineBlank`: name `ANCHORAGE INTL`, identifier `PANC`, country
    `" U"`. -/
theorem C7_noaa_extraction_witness :
    (lineBlank.length = 83 ∧ lineBlank[62]? = some 'X' ∧
      TrimSpace ((lineBlank.take 24).drop 20) ≠ []) ∧
    noaaLine [] lineBlank =
      .ok [("PANC".toList, { stationANC with country := " U".toList })] ∧
    ∃ lt lg, deg2dec ((lineBlank.take 46).drop 39) ((lineBlank.take 55).drop 47) = .ok (lt, lg) ∧
      noaaLine [] lineBlank = .ok (mapSet [] (TrimSpace ((lineBlank.take 24).drop 20))
        { name := TrimSpace ((lineBlank.take 20).drop 3)
          icao := TrimSpace ((lineBlank.take 24).drop 20)
          iata := []
          country := (lineBlank.take 83).drop 81
          lat := lt
          long := lg }) :=
  ⟨by decide, by decide,
    (C7_noaa_extraction [] lineBlank (by decide)).imp fun _ h2 =>
      h2.imp fun _ h3 => ⟨h3.1, h3.2.1⟩⟩

/-- C8: a row of 18 fields stores a record under its field 1; when the
    latitude (field 4) or the longitude (field 5) does not parse, both
    coordinates of the record are `999.0`, and when both parse they are the two
    parsed values. -/
theorem C8_csv_sentinel (stationsLIST : StationMap) (l : List GoString) (h : l.length = 18) :
    ∃ st, csvRow stationsLIST l = .ok (mapSet stationsLIST (l.getD 1 []) st) ∧
      mapGet (mapSet stationsLIST (l.getD 1 []) st) (l.getD 1 []) = some st ∧
      st.icao = l.getD 1 [] ∧
      (((ParseFloat (l.getD 4 [])).2 ≠ none ∨ (ParseFloat (l.getD 5 [])).2 ≠ none) →
        st.lat = F64.ofNat 999 ∧ st.long = F64.ofNat 999) ∧
      (((ParseFloat (l.getD 4 [])).2 = none ∧ (ParseFloat (l.getD 5 [])).2 = none) →
        st.lat = (ParseFloat (l.getD 4 [])).1 ∧ st.long = (ParseFloat (l.getD 5 [])).1) := by
  refine ⟨csvStation l, csvRow_eq stationsLIST l h, mapGet_mapSet_self _ _ _, rfl, ?_, ?_⟩
  · intro hf
    simp only [csvStation, if_pos hf, sentinel, and_self]
  · intro hp
    have hf : ¬ ((ParseFloat (l.getD 4 [])).2 ≠ none ∨ (ParseFloat (l.getD 5 [])).2 ≠ none) :=
      fun hc => hc.elim (fun h4 => h4 hp.1) (fun h5 => h5 hp.2)
    simp only [csvStation, if_neg hf, and_self]

/-- C8 on a row whose latitude is `abc` and whose longitude is `5`: the record
    is stored under `PANC` with both coordinates `999.0`. -/
theorem C8_csv_sentinel_witness :
    (csvRowOf "PANC" "Ted Stevens" "abc" "5").length = 18 ∧
    (ParseFloat "abc".toList).2 = some NumError.ErrSyntax ∧
    (ParseFloat "5".toList).2 = none ∧
    csvRow [] (csvRowOf "PANC" "Ted Stevens" "abc" "5") =
      .ok [("PANC".toList, ⟨"Ted Stevens (Anchorage)".toList, "PANC".toList, "ANC".toList,
        "US".toList, F64.ofNat 999, F64.ofNat 999⟩)] ∧
    ∃ st, csvRow [] (csvRowOf "PANC" "Ted Stevens" "abc" "5") =
      .ok (mapSet [] ((csvRowOf "PANC" "Ted Stevens" "abc" "5").getD 1 []) st) :=
  ⟨by decide, by decide, by decide, by decide,
    (C8_csv_sentinel [] (csvRowOf "PANC" "Ted Stevens" "abc" "5") (by decide)).imp
      fun _ h => h.1⟩

/-- C9: when a record of the CSV text has not 18 fields, the parse of the CSV
    source is the fatal error of line 95 and gives no map. -/
theorem C9_csv_field_count (records : List (List GoString)) (r : List GoString)
    (hr : r ∈ records) (hlen : r.length ≠ 18) :
    parseCSV records = .error .fatalCSV ∧ ∀ m, parseCSV records ≠ .ok m := by
  have h := parseCSV_error records r hr hlen
  refine ⟨h, fun m hm => ?_⟩
  rw [h] at hm
  exact Except.noConfusion hm

/-- C9 on a text whose third record has 17 fields, after two records of 18. -/
theorem C9_csv_field_count_witness :
    parseCSV [csvHeader, csvRowOf "PANC" "Ted Stevens" "61.1" "-149.9",
      (csvRowOf "PAFA" "Fairbanks" "64.8" "-147.8").take 17] = .error .fatalCSV :=
  (C9_csv_field_count
    [csvHeader, csvRowOf "PANC" "Ted Stevens" "61.1" "-149.9",
      (csvRowOf "PAFA" "Fairbanks" "64.8" "-147.8").take 17]
    ((csvRowOf "PAFA" "Fairbanks" "64.8" "-147.8").take 17) (by decide) (by decide)).1

/-- C10: for a CSV text whose records all have 18 fields, `hd` being the first
    one, the parse succeeds; the header `hd` is left out and the map is built by
    storing, for each other record `l` in turn, under the key `l[1]`, a record
    with identifier `l[1]`, secondary code `l[13]`, country `l[8]` and name
    `l[3]` without its double quotes, followed by `" (" + l[10] + ")"` when
    `l[10]` is not empty.  So the map holds under each key the record of the
    last row of that key. -/
theorem C10_csv_records (hd : List GoString) (rest : List (List GoString))
    (h18 : ∀ l ∈ hd :: rest, l.length = 18) :
    ∃ (mk : List GoString → station) (m : StationMap),
      (∀ l, (mk l).icao = l.getD 1 [] ∧ (mk l).iata = l.getD 13 [] ∧
        (mk l).country = l.getD 8 [] ∧
        (mk l).name = (l.getD 3 []).filter (fun c => decide (c ≠ '"')) ++
          (if l.getD 10 [] = [] then [] else " (".toList ++ l.getD 10 [] ++ ")".toList)) ∧
      parseCSV (hd :: rest) = .ok m ∧
      m = rest.foldl (fun m l => mapSet m (l.getD 1 []) (mk l)) [] ∧
      ∀ k, mapGet m k = (rest.reverse.find? (fun l => decide (l.getD 1 [] = k))).map mk := by
  refine ⟨csvStation, _, ?_, parseCSV_eq hd rest h18, rfl, ?_⟩
  · intro l
    refine ⟨rfl, rfl, rfl, ?_⟩
    simp only [csvStation, removeQuotes]
    by_cases h10 : l.getD 10 [] = [] <;> simp [h10]
  · intro k
    rw [mapGet_foldl_csv]
    cases rest.reverse.find? (fun l => decide (l.getD 1 [] = k)) <;> rfl

/-- C10 on a text of a header and two rows of the same identifier: the header
    gives no record and the map holds the record of the second row, its name
    without the double quotes and with the municipality. -/
theorem C10_csv_records_witness :
    parseCSV [csvHeader, csvRowOf "PANC" "Old" "61.1" "-149.9",
      csvRowOf "PANC" "Ted \"Stevens\"" "61.1" "-149.9"] =
      .ok [("PANC".toList, ⟨"Ted Stevens (Anchorage)".toList, "PANC".toList, "ANC".toList,
        "US".toList, (ParseFloat "61.1".toList).1, (ParseFloat "-149.9".toList).1⟩)] ∧
    ∃ (mk : List GoString → station) (m : StationMap),
      (∀ l, (mk l).icao = l.getD 1 [] ∧ (mk l).iata = l.getD 13 [] ∧
        (mk l).country = l.getD 8 [] ∧
        (mk l).name = (l.getD 3 []).filter (fun c => decide (c ≠ '"')) ++
          (if l.getD 10 [] = [] then [] else " (".toList ++ l.getD 10 [] ++ ")".toList)) ∧
      parseCSV [csvHeader, csvRowOf "PANC" "Old" "61.1" "-149.9",
        csvRowOf "PANC" "Ted \"Stevens\"" "61.1" "-149.9"] = .ok m :=
  ⟨by decide,
    (C10_csv_records csvHeader [csvRowOf "PANC" "Old" "61.1" "-149.9",
      csvRowOf "PANC" "Ted \"Stevens\"" "61.1" "-149.9"] (by decide)).imp
      fun _ h => h.imp fun _ h2 => ⟨h2.1, h2.2.1⟩⟩

/-- C11: for the maps that the two parsers build and any order of visit of the
    NOAA map, the sorted sequence is a permutation of the merged sequence, it is
    non-decreasing by identifier for the order of strings, no two of its records
    have the same identifier, and so it is strictly increasing. -/
theorem C11_sort_order (text : GoString) (records : List (List GoString))
    (stationsNOAA stationsLIST order : StationMap)
    (hN : parseNOAA text = .ok stationsNOAA) (hL : parseCSV records = .ok stationsLIST)
    (horder : order.Perm stationsNOAA) :
    (sortSlice lessIcao (merge order stationsLIST)).Perm (merge order stationsLIST) ∧
    (sortSlice lessIcao (merge order stationsLIST)).Pairwise
      (fun a b => strLess b.icao a.icao = false) ∧
    ((sortSlice lessIcao (merge order stationsLIST)).map station.icao).Nodup ∧
    (sortSlice lessIcao (merge order stationsLIST)).Pairwise
      (fun a b => strLess a.icao b.icao = true) := by
  have hp := sortSlice_perm lessIcao (merge order stationsLIST)
  have hs := sortSlice_sorted (merge order stationsLIST)
  have hn : ((sortSlice lessIcao (merge order stationsLIST)).map station.icao).Nodup :=
    (hp.map station.icao).nodup_iff.mpr
      (merge_nodup text records stationsNOAA stationsLIST order hN hL horder)
  exact ⟨hp, hs, hn, strict_of_sorted_nodup _ hs hn⟩

/-- C12: for the maps that the two parsers build, two orders of visit of the
    NOAA map give the same sorted sequence and so the same bytes written; this
    holds for the model of `sort.Slice` and for any other way to sort, since two
    sorted permutations of the two merged sequences are equal. -/
theorem C12_determinism (text : GoString) (records : List (List GoString))
    (stationsNOAA stationsLIST order1 order2 : StationMap)
    (hN : parseNOAA text = .ok stationsNOAA) (hL : parseCSV records = .ok stationsLIST)
    (h1 : order1.Perm stationsNOAA) (h2 : order2.Perm stationsNOAA) :
    (sortSlice lessIcao (merge order1 stationsLIST)).map recordLine =
      (sortSlice lessIcao (merge order2 stationsLIST)).map recordLine ∧
    recordLines (sortSlice lessIcao (merge order1 stationsLIST)) =
      recordLines (sortSlice lessIcao (merge order2 stationsLIST)) ∧
    ∀ out1 out2 : List station,
      out1.Perm (merge order1 stationsLIST) → out2.Perm (merge order2 stationsLIST) →
      out1.Pairwise (fun a b => strLess b.icao a.icao = false) →
      out2.Pairwise (fun a b => strLess b.icao a.icao = false) →
      out1.map recordLine = out2.map recordLine := by
  have hm : (merge order1 stationsLIST).Perm (merge order2 stationsLIST) :=
    merge_perm order1 order2 stationsLIST (h1.trans h2.symm)
  have hgen : ∀ out1 out2 : List station,
      out1.Perm (merge order1 stationsLIST) → out2.Perm (merge order2 stationsLIST) →
      out1.Pairwise (fun a b => strLess b.icao a.icao = false) →
      out2.Pairwise (fun a b => strLess b.icao a.icao = false) → out1 = out2 := by
    intro out1 out2 p1 p2 s1 s2
    refine sorted_perm_unique out1 out2 ((p1.trans hm).trans p2.symm) ?_ s1 s2
    exact (p1.map station.icao).nodup_iff.mpr
      (merge_nodup text records stationsNOAA stationsLIST order1 hN hL h1)
  have heq := hgen _ _ (sortSlice_perm lessIcao _) (sortSlice_perm lessIcao _)
    (sortSlice_sorted _) (sortSlice_sorted _)
  refine ⟨by rw [heq], by rw [heq], ?_⟩
  intro out1 out2 p1 p2 s1 s2
  rw [hgen out1 out2 p1 p2 s1 s2]

/-- C11 on the two sample lines, visited Anchorage first: the sorted sequence
    is Fairbanks (PAFA), then Anchorage (PANC). -/
theorem C11_sort_order_witness :
    parseNOAA (lineANC ++ ['\n'] ++ lineFAI) =
      .ok [("PAFA".toList, stationFAI), ("PANC".toList, stationANC)] ∧
    merge [("PANC".toList, stationANC), ("PAFA".toList, stationFAI)] [] =
      [stationANC, stationFAI] ∧
    sortSlice lessIcao (merge [("PANC".toList, stationANC), ("PAFA".toList, stationFAI)] []) =
      [stationFAI, stationANC] ∧
    (sortSlice lessIcao
      (merge [("PANC".toList, stationANC), ("PAFA".toList, stationFAI)] [])).Pairwise
      (fun a b => strLess a.icao b.icao = true) :=
  ⟨by decide, by decide, by decide,
    (C11_sort_order (lineANC ++ ['\n'] ++ lineFAI) [csvHeader]
      [("PAFA".toList, stationFAI), ("PANC".toList, stationANC)] []
      [("PANC".toList, stationANC), ("PAFA".toList, stationFAI)]
      (by decide) (by decide) (List.Perm.swap _ _ _)).2.2.2⟩

/-- C12 on the two sample lines: visited in one order or the other, the bytes
    written are the same. -/
theorem C12_determinism_witness :
    recordLines (sortSlice lessIcao
        (merge [("PANC".toList, stationANC), ("PAFA".toList, stationFAI)] [])) =
      recordLines (sortSlice lessIcao
        (merge [("PAFA".toList, stationFAI), ("PANC".toList, stationANC)] [])) ∧
    recordLines (sortSlice lessIcao
        (merge [("PANC".toList, stationANC), ("PAFA".toList, stationFAI)] [])) =
      ("\t\"PAFA;;FAIRBANKS INTL;US;64.817;-147.867\",\n" ++
        "\t\"PANC;;ANCHORAGE INTL;US;61.167;-150.500\",\n\x7d\n").toList :=
  ⟨(C12_determinism (lineANC ++ ['\n'] ++ lineFAI) [csvHeader]
      [("PAFA".toList, stationFAI), ("PANC".toList, stationANC)] []
      [("PANC".toList, stationANC), ("PAFA".toList, stationFAI)]
      [("PAFA".toList, stationFAI), ("PANC".toList, stationANC)]
      (by decide) (by decide) (List.Perm.swap _ _ _) (List.Perm.refl _)).2.1,
    by decide⟩

/-- C13, as stated, fails: nothing normalises the letter case.  The NOAA line
    of `PANC` and the CSV row of identifier `panc` are not joined: the merged
    sequence is the NOAA record alone, with the NOAA name. -/
theorem C13_counterexample :
    ¬ ∀ (text : GoString) (hd : List GoString) (rest : List (List GoString))
        (stationsNOAA stationsLIST order : StationMap) (A : GoString) (P : station)
        (l : List GoString),
        parseNOAA text = .ok stationsNOAA → parseCSV (hd :: rest) = .ok stationsLIST →
        order.Perm stationsNOAA → (A, P) ∈ stationsNOAA → l ∈ rest →
        (TrimSpace (l.getD 1 [])).map Char.toLower = (TrimSpace A).map Char.toLower →
        ∃ r ∈ merge order stationsLIST,
          r.name = (csvStation l).name ∧ r.iata = (csvStation l).iata := by
  intro h
  obtain ⟨r, hr, hname, -⟩ := h lineANC csvHeader [csvRowOf "panc" "Ted Stevens" "61.1" "-149.9"]
    [("PANC".toList, stationANC)]
    [("panc".toList, csvStation (csvRowOf "panc" "Ted Stevens" "61.1" "-149.9"))]
    [("PANC".toList, stationANC)] "PANC".toList stationANC
    (csvRowOf "panc" "Ted Stevens" "61.1" "-149.9")
    (by decide) (by decide) (List.Perm.refl _) (by decide) (by decide) (by decide)
  have hm : merge [("PANC".toList, stationANC)]
      [("panc".toList, csvStation (csvRowOf "panc" "Ted Stevens" "61.1" "-149.9"))] =
      [stationANC] := by decide
  rw [hm, List.mem_singleton] at hr
  subst hr
  revert hname
  decide

/-- C13, amended: the join compares the identifiers byte for byte.  The
    identifier `A` of a NOAA record is the field `l[20:24]` of a line with its
    surrounding white space trimmed, the letters as they are; the identifier of
    a CSV row is its field 1 as it is.  When a row has the identifier `A` the
    merged sequence holds the record of such a row, and when no row has exactly
    the identifier `A` it holds the NOAA record. -/
theorem C13_join_exact (text : GoString) (hd : List GoString) (rest : List (List GoString))
    (stationsNOAA stationsLIST order : StationMap) (A : GoString) (P : station)
    (hN : parseNOAA text = .ok stationsNOAA) (hL : parseCSV (hd :: rest) = .ok stationsLIST)
    (horder : order.Perm stationsNOAA) (hP : (A, P) ∈ stationsNOAA) :
    (∃ l ∈ splitLines text, A = TrimSpace ((l.take 24).drop 20)) ∧
    ((∃ l ∈ rest, l.getD 1 [] = A) →
      ∃ l ∈ rest, l.getD 1 [] = A ∧ mapGet stationsLIST A = some (csvStation l) ∧
        ∃ r ∈ merge order stationsLIST,
          r.name = (csvStation l).name ∧ r.icao = A ∧ r.iata = l.getD 13 [] ∧
          r.country = l.getD 8 []) ∧
    ((∀ l ∈ rest, l.getD 1 [] ≠ A) →
      mapGet stationsLIST A = none ∧ P ∈ merge order stationsLIST) := by
  have hk := (parseNOAA_keyed text stationsNOAA hN).1
  have hA : P.icao = A := hk.2 _ hP
  have hmem : (A, P) ∈ order := horder.mem_iff.mpr hP
  obtain ⟨hd2, rest2, hrec, h18⟩ := parseCSV_ok (hd :: rest) stationsLIST hL
  rw [parseCSV_eq hd rest h18] at hL
  simp only [Except.ok.injEq] at hL
  subst hL
  refine ⟨parseNOAA_keys text stationsNOAA hN _ hP, ?_, ?_⟩
  · intro hex
    obtain ⟨l, hl, hkey, hget⟩ := mapGet_csv_some rest A hex
    obtain ⟨r, hr, h1, h2, h3, h4⟩ := merge_joined order _ A P _ hmem hA hget
    exact ⟨l, hl, hkey, hget, r, hr, h1, h2.trans hkey, h3, h4⟩
  · intro hno
    have hget := mapGet_csv_none rest A hno
    exact ⟨hget, merge_alone order _ A P hmem hA hget⟩

/-- C13 on the sample line of `PANC`: with a CSV row of identifier `PANC` the
    merged record is the row's; with a row of identifier `panc`, or ` PANC`
    with a blank before it, the merged record is the NOAA record. -/
theorem C13_join_exact_witness :
    merge [("PANC".toList, stationANC)]
      [("PANC".toList, csvStation (csvRowOf "PANC" "Ted Stevens" "61.1" "-149.9"))] =
      [csvStation (csvRowOf "PANC" "Ted Stevens" "61.1" "-149.9")] ∧
    merge [("PANC".toList, stationANC)]
      [("panc".toList, csvStation (csvRowOf "panc" "Ted Stevens" "61.1" "-149.9"))] =
      [stationANC] ∧
    merge [("PANC".toList, stationANC)]
      [(" PANC".toList, csvStation (csvRowOf " PANC" "Ted Stevens" "61.1" "-149.9"))] =
      [stationANC] ∧
    ((∀ l ∈ [csvRowOf " PANC" "Ted Stevens" "61.1" "-149.9"], l.getD 1 [] ≠ "PANC".toList) →
      mapGet [(" PANC".toList, csvStation (csvRowOf " PANC" "Ted Stevens" "61.1" "-149.9"))]
        "PANC".toList = none ∧
      stationANC ∈ merge [("PANC".toList, stationANC)]
        [(" PANC".toList, csvStation (csvRowOf " PANC" "Ted Stevens" "61.1" "-149.9"))]) :=
  ⟨by decide, by decide, by decide,
    (C13_join_exact lineANC csvHeader [csvRowOf " PANC" "Ted Stevens" "61.1" "-149.9"]
      [("PANC".toList, stationANC)]
      [(" PANC".toList, csvStation (csvRowOf " PANC" "Ted Stevens" "61.1" "-149.9"))]
      [("PANC".toList, stationANC)] "PANC".toList stationANC
      (by decide) (by decide) (List.Perm.refl _) (by decide)).2.2⟩

/-- C14, as stated, fails for the CSV source: with the NOAA line of `PANC` and
    a CSV text that holds its header and no row, the CSV parser gives no
    record, the run does not stop and the data file is rewritten. -/
theorem C14_counterexample :
    ¬ ∀ (getNOAA getCSV : Except Unit Response)
        (lexCSV : GoString → Except Unit (List (List GoString)))
        (visit : StationMap → StationMap) (dataFile s : GoString)
        (records : List (List GoString)),
        wget getCSV = .ok (s, none) → lexCSV s = .ok records → parseCSV records = .ok [] →
        (∃ a, main getNOAA getCSV lexCSV visit dataFile = .error a) ∧
        fileAfter dataFile (main getNOAA getCSV lexCSV visit dataFile) = dataFile := by
  intro h
  obtain ⟨-, h2⟩ := h (.ok ⟨200, lineANC ++ ['\n'], false⟩)
    (.ok ⟨200, ("id,ident,type,name,latitude_deg,longitude_deg,elevation_ft,continent," ++
      "iso_country,iso_region,municipality,scheduled_service,gps_code,iata_code," ++
      "local_code,home_link,wikipedia_link,keywords\n").toList, false⟩)
    (fun _ => .ok [csvHeader]) id fileOld
    ("id,ident,type,name,latitude_deg,longitude_deg,elevation_ft,continent," ++
      "iso_country,iso_region,municipality,scheduled_service,gps_code,iata_code," ++
      "local_code,home_link,wikipedia_link,keywords").toList
    [csvHeader] (by decide) rfl (by decide)
  revert h2
  decide

/-- C14, amended: when the NOAA text gives no record the run stops and the data
    file keeps its content; the CSV source has no such test: when the NOAA text
    gives records and the CSV text holds a header and no row, the run goes on
    and rewrites the data file with the NOAA records. -/
theorem C14_empty_sources (getNOAA getCSV : Except Unit Response)
    (lexCSV : GoString → Except Unit (List (List GoString)))
    (visit : StationMap → StationMap) (dataFile s : GoString)
    (hget : wget getNOAA = .ok (s, none)) :
    ((splitLines s).foldlM noaaLine [] = .ok [] →
      (∃ a, main getNOAA getCSV lexCSV visit dataFile = .error a) ∧
      fileAfter dataFile (main getNOAA getCSV lexCSV visit dataFile) = dataFile) ∧
    (∀ (m1 : StationMap) (s2 : GoString) (hd : List GoString),
      parseNOAA s = .ok m1 → wget getCSV = .ok (s2, none) → lexCSV s2 = .ok [hd] →
      hd.length = 18 →
      parseCSV [hd] = .ok [] ∧
      main getNOAA getCSV lexCSV visit dataFile =
        .ok (rewriteFile dataFile (sortSlice lessIcao (merge (visit m1) [])))) := by
  constructor
  · intro hzero
    have hm := main_noaa_empty getNOAA getCSV lexCSV visit dataFile s hget hzero
    rw [hm]
    exact ⟨⟨_, rfl⟩, rfl⟩
  · intro m1 s2 hd hN hget2 hlex h18
    refine ⟨?_, main_csv_header_only getNOAA getCSV lexCSV visit dataFile s s2 m1 hd hget hN
      hget2 hlex h18⟩
    rw [parseCSV_eq hd [] (by simpa using h18)]
    rfl

/-- C14 on a NOAA text with no station line (`"title\n"` as fetched): the run
    stops and the data file is as before. -/
theorem C14_empty_sources_witness :
    wget (.ok ⟨200, "title\n\n".toList, false⟩) = .ok ("title\n".toList, none) ∧
    (splitLines "title\n".toList).foldlM noaaLine [] = .ok [] ∧
    (∃ a, main (.ok ⟨200, "title\n\n".toList, false⟩) (.ok ⟨200, "x\n".toList, false⟩)
      (fun _ => .ok [csvHeader]) id fileOld = .error a) ∧
    fileAfter fileOld (main (.ok ⟨200, "title\n\n".toList, false⟩)
      (.ok ⟨200, "x\n".toList, false⟩) (fun _ => .ok [csvHeader]) id fileOld) = fileOld :=
  ⟨by decide, by decide,
    (C14_empty_sources (.ok ⟨200, "title\n\n".toList, false⟩) (.ok ⟨200, "x\n".toList, false⟩)
      (fun _ => .ok [csvHeader]) id fileOld "title\n".toList (by decide)).1 (by decide)⟩

/-- C15, at two failing inputs.  A data file with `\r\n` line ends: the scanner
    gives each line without its `\r\n` and the loop counts one byte for it, so
    the file is cut two bytes before the end of the marker line and the first
    record line follows the marker on the same line.  A data file that ends
    with the marker line, without line end: the count is one more than the
    size, `Truncate` adds a zero byte.  On the sample file with `\n` line ends
    the result is the one that the claim states. -/
theorem C15_rewrite_frame_broken :
    rewriteFile "package data\r\nvar AdList = []string\x7b\r\n\t\"OLD\",\r\n\x7d\r\n".toList
        [stationANC] =
      "package data\r\nvar AdList = []string\x7b".toList ++ recordLines [stationANC] ∧
    rewriteFile "package data\r\nvar AdList = []string\x7b\r\n\t\"OLD\",\r\n\x7d\r\n".toList
        [stationANC] ≠
      "package data\r\nvar AdList = []string\x7b\r\n".toList ++ recordLines [stationANC] ∧
    rewriteFile "package data\nvar AdList = []string\x7b".toList [stationANC] =
      "package data\nvar AdList = []string\x7b".toList ++ [Char.ofNat 0] ++
        recordLines [stationANC] ∧
    rewriteFile fileOld [stationANC] =
      "package data\n\nvar AdList = []string\x7b\n".toList ++ recordLines [stationANC] := by
  decide

/-- C16, at two failing inputs: the last byte of the body is removed whatever
    it is.  The body `abc` gives `ab`, and the empty body makes the slice
    `wgetAnswer[:len(wgetAnswer)-1]` panic.  A body that ends with `\n` gives
    the body without that `\n`. -/
theorem C16_wget_last_byte :
    wget (.ok ⟨200, "abc".toList, false⟩) = .ok ("ab".toList, none) ∧
    wget (.ok ⟨200, [], false⟩) = .error .panic ∧
    ∀ body : GoString, wget (.ok ⟨200, body ++ ['\n'], false⟩) = .ok (body, none) := by
  refine ⟨by decide, by decide, ?_⟩
  intro body
  simp [wget]

/-- C17, at the failing input: when `ReadAll` fails `wget` returns what it
    returns when `ReadAll` succeeds with the same bytes, a string and no error;
    with the bytes `partial` read before the failure it returns `partia`. -/
theorem C17_wget_read_error_lost :
    (∀ body : GoString, wget (.ok ⟨200, body, true⟩) = wget (.ok ⟨200, body, false⟩)) ∧
    wget (.ok ⟨200, "partial".toList, true⟩) = .ok ("partia".toList, none) ∧
    ∀ (body : GoString) (r : GoString × Option UrlError),
      wget (.ok ⟨200, body, true⟩) = .ok r → r.2 = none := by
  refine ⟨fun _ => rfl, by decide, ?_⟩
  intro body r h
  unfold wget at h
  simp only [ne_eq, not_true_eq_false, if_false] at h
  split at h
  · exact Except.noConfusion h
  · simp only [Except.ok.injEq] at h
    rw [← h]

/-- C20: on a line of 83 bytes every index and slice of the loop body and of
    `deg2dec` is in bounds, `deg2dec` returns a pair and the loop body returns
    a map, whatever the bytes of the line. -/
theorem C20_index_safety (l : GoString) (h : l.length = 83) :
    index l 62 = .ok (l.getD 62 ' ') ∧
    slice l 20 24 = .ok ((l.take 24).drop 20) ∧
    slice l 3 20 = .ok ((l.take 20).drop 3) ∧
    slice l 81 83 = .ok ((l.take 83).drop 81) ∧
    slice l 39 46 = .ok ((l.take 46).drop 39) ∧
    slice l 47 55 = .ok ((l.take 55).drop 47) ∧
    ((l.take 46).drop 39).length = 7 ∧ ((l.take 55).drop 47).length = 8 ∧
    (∀ lat : GoString, lat.length = 7 →
      (∃ a, slice lat 0 2 = .ok a) ∧ (∃ a, slice lat 3 5 = .ok a) ∧ ∃ c, index lat 5 = .ok c) ∧
    (∀ long : GoString, long.length = 8 →
      (∃ a, slice long 0 3 = .ok a) ∧ (∃ a, slice long 4 6 = .ok a) ∧
        ∃ c, index long 6 = .ok c) ∧
    (∃ lt lg, deg2dec ((l.take 46).drop 39) ((l.take 55).drop 47) = .ok (lt, lg)) ∧
    ∀ m, ∃ m2, noaaLine m l = .ok m2 := by
  have h62 : index l 62 = .ok (l.getD 62 ' ') := by
    rw [index_ok l 62 (by omega)]
    simp [List.getD_eq_getElem?_getD, List.getElem?_eq_getElem (show 62 < l.length by omega)]
  refine ⟨h62, slice_ok l 20 24 (by omega) (by omega), slice_ok l 3 20 (by omega) (by omega),
    slice_ok l 81 83 (by omega) (by omega), slice_ok l 39 46 (by omega) (by omega),
    slice_ok l 47 55 (by omega) (by omega), by simp; omega, by simp; omega, ?_, ?_, ?_, ?_⟩
  · intro lat hl
    exact ⟨⟨_, slice_ok lat 0 2 (by omega) (by omega)⟩,
      ⟨_, slice_ok lat 3 5 (by omega) (by omega)⟩, ⟨_, index_ok lat 5 (by omega)⟩⟩
  · intro long hl
    exact ⟨⟨_, slice_ok long 0 3 (by omega) (by omega)⟩,
      ⟨_, slice_ok long 4 6 (by omega) (by omega)⟩, ⟨_, index_ok long 6 (by omega)⟩⟩
  · exact ⟨_, _, deg2dec_eq _ _ (by simp; omega) (by simp; omega)⟩
  · intro m
    rcases noaaLine_cases m l with h1 | ⟨st, -, -, h1⟩
    · exact ⟨_, h1⟩
    · exact ⟨_, h1⟩

/-- C20 on the sample line: it has 83 bytes and the loop body returns the map
    with its record. -/
theorem C20_index_safety_witness :
    lineANC.length = 83 ∧
    noaaLine [] lineANC = .ok [("PANC".toList, stationANC)] ∧
    ∀ m, ∃ m2, noaaLine m lineANC = .ok m2 :=
  ⟨by decide, by decide, (C20_index_safety lineANC (by decide)).2.2.2.2.2.2.2.2.2.2.2⟩

/-- C18, as stated, fails: `deg2dec` checks no range.  Two digits of degrees
    and two of minutes can be `99 99`, three digits of degrees `999`:
    `deg2dec("99 99N", "999 99E")` is `(100.65, 1000.65)`, not the sentinel
    pair, with a latitude above 90 and a longitude above 180. -/
theorem C18_counterexample :
    ¬ ∀ (d1 d2 m1 m2 e1 e2 e3 n1 n2 : Fin 10) (h1 h2 : Char) (lt lg : F64),
      deg2dec
        [Char.ofNat (48 + d1.val), Char.ofNat (48 + d2.val), ' ', Char.ofNat (48 + m1.val),
          Char.ofNat (48 + m2.val), h1]
        [Char.ofNat (48 + e1.val), Char.ofNat (48 + e2.val), Char.ofNat (48 + e3.val), ' ',
          Char.ofNat (48 + n1.val), Char.ofNat (48 + n2.val), h2] = .ok (lt, lg) →
      (lt, lg) = (F64.ofNat 999, F64.ofNat 999) ∨
      (F64.le (F64.abs lt) (F64.ofNat 90) = true ∧
        F64.le (F64.abs lg) (F64.ofNat 180) = true) := by
  intro h
  have h2 := h 9 9 9 9 9 9 9 9 9 'N' 'E' (.fin false 7082614101481882 (-46))
    (.fin false 8801810482672435 (-43)) (by decide)
  revert h2
  decide

/-- C18, amended: for a latitude of two digits of degrees, two digits of
    minutes and a letter, and a longitude of three digits of degrees, two
    digits of minutes and a letter, that denote a position in range (degrees +
    minutes/60 at most 90, respectively at most 180), `deg2dec` returns a
    latitude of absolute value at most 90 and a longitude of absolute value at
    most 180. -/
theorem C18_range (d1 d2 m1 m2 e1 e2 e3 n1 n2 : Fin 10) (s1 h1 s2 h2 : Char)
    (t1 t2 : GoString)
    (hlat : (10 * d1.val + d2.val) * 60 + (10 * m1.val + m2.val) ≤ 60 * 90)
    (hlon : (100 * e1.val + 10 * e2.val + e3.val) * 60 + (10 * n1.val + n2.val) ≤ 60 * 180) :
    ∃ lt lg,
      deg2dec
        (Char.ofNat (48 + d1.val) :: Char.ofNat (48 + d2.val) :: s1 ::
          Char.ofNat (48 + m1.val) :: Char.ofNat (48 + m2.val) :: h1 :: t1)
        (Char.ofNat (48 + e1.val) :: Char.ofNat (48 + e2.val) :: Char.ofNat (48 + e3.val) ::
          s2 :: Char.ofNat (48 + n1.val) :: Char.ofNat (48 + n2.val) :: h2 :: t2) =
        .ok (lt, lg) ∧
      F64.le (F64.abs lt) (F64.ofNat 90) = true ∧
      F64.le (F64.abs lg) (F64.ofNat 180) = true := by
  have h90 : ∃ mb eb, F64.ofNat 90 = .fin false mb eb ∧ (mb : ℚ) * (2 : ℚ) ^ eb = (90 : ℕ) :=
    ⟨6333186975989760, -46, by decide, by norm_num⟩
  have h180 : ∃ mb eb, F64.ofNat 180 = .fin false mb eb ∧ (mb : ℚ) * (2 : ℚ) ^ eb = (180 : ℕ) :=
    ⟨6333186975989760, -45, by decide, by norm_num⟩
  obtain ⟨ma, ea, hxa, hva⟩ := F64.coord_le (10 * d1.val + d2.val) (10 * m1.val + m2.val) 90
    (by norm_num) hlat
  obtain ⟨mo, eo, hxo, hvo⟩ := F64.coord_le (100 * e1.val + 10 * e2.val + e3.val)
    (10 * n1.val + n2.val) 180 (by norm_num) hlon
  have hca := F64.add_canonical (F64.round false (10 * d1.val + d2.val) 1 0)
    (F64.div (F64.round false (10 * m1.val + m2.val) 1 0) sixty)
  have hco := F64.add_canonical (F64.round false (100 * e1.val + 10 * e2.val + e3.val) 1 0)
    (F64.div (F64.round false (10 * n1.val + n2.val) 1 0) sixty)
  have hd := deg2dec_eq
    (Char.ofNat (48 + d1.val) :: Char.ofNat (48 + d2.val) :: s1 ::
      Char.ofNat (48 + m1.val) :: Char.ofNat (48 + m2.val) :: h1 :: t1)
    (Char.ofNat (48 + e1.val) :: Char.ofNat (48 + e2.val) :: Char.ofNat (48 + e3.val) ::
      s2 :: Char.ofNat (48 + n1.val) :: Char.ofNat (48 + n2.val) :: h2 :: t2)
    (by simp) (by simp)
  simp only [List.take_succ_cons, List.take_zero, List.drop_succ_cons, List.drop_zero,
    ParseFloat_two_digits, ParseFloat_three_digits, ne_eq, not_true_eq_false, if_false] at hd
  exact ⟨_, _, hd, signed_abs_le _ _ ma ea _ 90 hxa hca h90 hva,
    signed_abs_le _ _ mo eo _ 180 hxo hco h180 hvo⟩

/-- C18 on the fields of the sample line, `61 10N ` and `150 30W `: the
    position is in range and so are the two values returned. -/
theorem C18_range_witness :
    (10 * 6 + 1) * 60 + (10 * 1 + 0) ≤ 60 * 90 ∧
    (100 * 1 + 10 * 5 + 0) * 60 + (10 * 3 + 0) ≤ 60 * 180 ∧
    ∃ lt lg, deg2dec "61 10N ".toList "150 30W ".toList = .ok (lt, lg) ∧
      F64.le (F64.abs lt) (F64.ofNat 90) = true ∧
      F64.le (F64.abs lg) (F64.ofNat 180) = true :=
  ⟨by decide, by decide,
    C18_range 6 1 1 0 1 5 0 3 0 ' ' 'N' ' ' 'W' [' '] [' '] (by decide) (by decide)⟩

/-- C19, as stated, fails: a computed value can be `999.0`.
    `deg2dec("10 00N", "999 00E")` is `(10.0, 999.0)`: a valid latitude beside
    a longitude equal to the sentinel. -/
theorem C19_counterexample :
    ¬ ∀ (lat long : GoString) (r : F64 × F64), deg2dec lat long = .ok r →
      r = (F64.ofNat 999, F64.ofNat 999) ∨
      (F64.eq r.1 (F64.ofNat 999) = false ∧ F64.eq r.2 (F64.ofNat 999) = false) := by
  intro h
  have h2 := h "10 00N".toList "999 00E".toList (F64.ofNat 10, F64.ofNat 999) (by decide)
  revert h2
  decide

/-- C19, amended: on every pair of strings `deg2dec` either panics, which
    needs a string shorter than its indices, or returns a result that is the
    sentinel pair `(999.0, 999.0)` or the pair of values computed from the four
    fields: the sentinel is returned for both axes together and never replaces
    one axis alone.  A computed value is not compared with `999.0`; it differs
    from it whenever it is in range (absolute value at most 90 for the
    latitude, 180 for the longitude). -/
theorem C19_sentinel_pair (lat long : GoString) :
    (deg2dec lat long = .error .panic ∧ (lat.length < 6 ∨ long.length < 7)) ∨
    ∃ r, deg2dec lat long = .ok r ∧
      (r = (F64.ofNat 999, F64.ofNat 999) ∨
        (r =
          (if lat[5]? = some 'S' then
              F64.neg (F64.add (ParseFloat (lat.take 2)).1
                (F64.div (ParseFloat ((lat.take 5).drop 3)).1 (F64.ofNat 60)))
            else
              F64.add (ParseFloat (lat.take 2)).1
                (F64.div (ParseFloat ((lat.take 5).drop 3)).1 (F64.ofNat 60)),
           if long[6]? = some 'W' then
              F64.neg (F64.add (ParseFloat (long.take 3)).1
                (F64.div (ParseFloat ((long.take 6).drop 4)).1 (F64.ofNat 60)))
            else
              F64.add (ParseFloat (long.take 3)).1
                (F64.div (ParseFloat ((long.take 6).drop 4)).1 (F64.ofNat 60))) ∧
        (F64.le (F64.abs r.1) (F64.ofNat 90) = true → F64.eq r.1 (F64.ofNat 999) = false) ∧
        (F64.le (F64.abs r.2) (F64.ofNat 180) = true →
          F64.eq r.2 (F64.ofNat 999) = false))) := by
  by_cases hl : 6 ≤ lat.length ∧ 7 ≤ long.length
  · right
    refine ⟨_, deg2dec_eq lat long hl.1 hl.2, ?_⟩
    by_cases herr : (ParseFloat ((long.take 6).drop 4)).2 ≠ none
    · left
      rw [if_pos herr]
      rfl
    · right
      rw [if_neg herr]
      refine ⟨?_, not_sentinel_of_le _ _ (by decide), not_sentinel_of_le _ _ (by decide)⟩
      simp only [F64.mul_minusOne _ (F64.add_canonical _ _)]
      rfl
  · rcases deg2dec_cases lat long with h | h | h
    · left
      exact ⟨h, by omega⟩
    · right
      exact ⟨_, h, Or.inl rfl⟩
    · exact absurd h hl

/-- C19 at four calls: `deg2dec("61 10", "150 xxW")` and
    `deg2dec("61 10N", "150 3xW")` return the sentinel pair,
    `deg2dec("61 10", "150 30W")` panics at `lat[5]`, and
    `deg2dec("61 10N", "150 30W")` returns the computed pair, in range and
    without `999.0`. -/
theorem C19_sentinel_pair_witness :
    deg2dec "61 10".toList "150 xxW".toList = .ok (F64.ofNat 999, F64.ofNat 999) ∧
    deg2dec "61 10N".toList "150 3xW".toList = .ok (F64.ofNat 999, F64.ofNat 999) ∧
    deg2dec "61 10".toList "150 30W".toList = .error .panic ∧
    deg2dec "61 10N".toList "150 30W".toList =
      .ok (F64.fin false 8608443037734229 (-47), F64.round true 301 2 0) ∧
    F64.eq (F64.fin false 8608443037734229 (-47)) (F64.ofNat 999) = false ∧
    F64.eq (F64.round true 301 2 0) (F64.ofNat 999) = false ∧
    ∃ r, deg2dec "61 10N".toList "150 30W".toList = .ok r ∧
      (r = (F64.ofNat 999, F64.ofNat 999) ∨
        ((F64.le (F64.abs r.1) (F64.ofNat 90) = true → F64.eq r.1 (F64.ofNat 999) = false) ∧
          (F64.le (F64.abs r.2) (F64.ofNat 180) = true →
            F64.eq r.2 (F64.ofNat 999) = false))) :=
  ⟨by decide, by decide, by decide, by decide, by decide, by decide,
    ((C19_sentinel_pair "61 10N".toList "150 30W".toList).resolve_left (by decide)).imp
      fun _ h => ⟨h.1, h.2.imp id fun k => k.2⟩⟩

end Metar
